import Mathlib

/-!
Verification development for the route-runner delivery-route planner.

The algorithmic core lives in `src/services/clustering.service.ts`
(cluster building, redistribution, nearest-neighbor + 2-opt walking
routes, cycling totals), `src/services/coordinates.service.ts`
(postal-code fallback table), `src/services/geocoding.service.ts` and
the Dutch geocoding service (fallback results), and the route
optimization component (single-mode nearest-neighbor pass).

Numbers are embedded over an arbitrary linear ordered field `α`
(instantiated at `ℚ` for executable checks and at `ℝ` for the haversine
distance).  The haversine metric itself is transcendental, so every
algorithm is embedded parametrically in the distance function
`dist : LatLng α → LatLng α → α`, exactly as the source code treats
`calculateDistance` as a black box; the real haversine formula is
defined separately over `ℝ` and plugged in where a claim needs it.
-/

/-- A latitude/longitude pair, as the `{ lat, lng }` objects of the source. -/
structure LatLng (α : Type) where
  lat : α
  lng : α
  deriving DecidableEq, Repr

/-- A delivery address (the `Address` interface of `src/pages/Index.tsx`),
restricted to the fields the clustering service reads: the stable `id` and
the optional `coordinates` pair stored as `[longitude, latitude]`. -/
structure Address (α : Type) where
  id : String
  coordinates : Option (α × α)
  deriving DecidableEq, Repr

/-- `BikeWalkSettings` from `src/types/multimodal.ts`.  The source's
`homeBase` also carries a display string, which no algorithm reads; the
embedding keeps only its coordinates. -/
structure BikeWalkSettings (α : Type) where
  maxWalkingDistance : α
  walkingSpeed : α
  cyclingSpeed : α
  bikeParkingTime : α
  preferredClusterSize : α
  homeBase : Option (LatLng α)
  deriving DecidableEq, Repr

/-- `Cluster` from `src/types/multimodal.ts`: member address ids, the bike
anchor, the ordered walking route (ids) and derived walking stats. -/
structure Cluster (α : Type) where
  id : String
  addresses : List String
  bikeLocation : LatLng α
  walkingRoute : List String
  totalWalkingDistance : α
  totalWalkingTime : α
  deriving DecidableEq, Repr

/-- `BikeWalkRoute` from `src/types/multimodal.ts`. -/
structure BikeWalkRoute (α : Type) where
  id : String
  clusters : List (Cluster α)
  totalDistance : α
  totalTime : α
  walkingDistance : α
  cyclingDistance : α
  walkingTime : α
  cyclingTime : α
  settings : BikeWalkSettings α
  deriving DecidableEq, Repr

/-- Reads a `[lng, lat]` coordinate pair as a `{ lat, lng }` object, the way
every call site of the source does with `coordinates[1], coordinates[0]`. -/
def latLngOfCoord {α : Type} (c : α × α) : LatLng α :=
  ⟨c.2, c.1⟩

section Clustering

variable {α : Type} [LinearOrderedField α] [FloorRing α]
variable (dist : LatLng α → LatLng α → α) (s : BikeWalkSettings α)

/-- The arithmetic mean of a list of `[lng, lat]` coordinates, as computed in
`calculateOptimalBikeLocation` (clustering.service.ts lines 209-215). -/
def geometricCenter (valid : List (α × α)) : LatLng α :=
  ⟨(valid.map (fun c => c.2)).sum / (valid.length : α),
   (valid.map (fun c => c.1)).sum / (valid.length : α)⟩

/-- `calculateOptimalBikeLocation` (clustering.service.ts lines 193-241): with
no coordinate-bearing member it returns the fixed Utrecht point; with one it
returns that coordinate; otherwise it returns the member coordinate closest to
the geometric center (first minimum wins).  Members are represented by their
coordinate values, the only data the source reads from `validAddresses`. -/
def calculateOptimalBikeLocation (addresses : List (Address α)) : LatLng α :=
  let valid := addresses.filterMap (fun a => a.coordinates)
  match valid with
  | [] => ⟨(520907 : α) / 10000, (51214 : α) / 10000⟩
  | [c] => latLngOfCoord c
  | c :: c2 :: t =>
    let center := geometricCenter (c :: c2 :: t)
    let best := (c2 :: t).foldl
      (fun p cc =>
        let d := dist center (latLngOfCoord cc)
        if d < p.1 then (d, cc) else p)
      (dist center (latLngOfCoord c), c)
    latLngOfCoord best.2

/-- The membership test of the growth loop in `createClusters`
(clustering.service.ts lines 37-44): the candidate address is within
`maxWalkingDistance` of some current cluster member; addresses without
coordinates never qualify. -/
def withinRange (clusterAddresses : List (Address α)) (address : Address α) :
    Bool :=
  clusterAddresses.any fun clusterAddr =>
    match address.coordinates, clusterAddr.coordinates with
    | some ac, some cc =>
        decide (dist (latLngOfCoord cc) (latLngOfCoord ac)
          ≤ s.maxWalkingDistance)
    | _, _ => false

/-- The inner growth loop of `createClusters` (clustering.service.ts lines
32-52): one left-to-right scan over the unassigned addresses, moving a scanned
address into the growing cluster when it is within range and the cluster is
below `preferredClusterSize`.  Returns the grown cluster and the addresses
left unassigned, in their original relative order. -/
def growCluster : List (Address α) → List (Address α) →
    List (Address α) × List (Address α)
  | clusterAddresses, [] => (clusterAddresses, [])
  | clusterAddresses, a :: rest =>
    if (clusterAddresses.length : α) < s.preferredClusterSize then
      if withinRange dist s clusterAddresses a then
        growCluster (clusterAddresses ++ [a]) rest
      else
        let p := growCluster clusterAddresses rest
        (p.1, a :: p.2)
    else (clusterAddresses, a :: rest)

/-- Comparison against the running `nearestDistance`, whose initial value is
JavaScript `Infinity` (represented by `none`): every distance beats it. -/
def ltOptB (d : α) : Option α → Bool
  | none => true
  | some b => decide (d < b)

/-- The argmin scan inside `nearestNeighborRoute` (clustering.service.ts lines
264-280): the index of the remaining address with the smallest distance to the
current location, skipping addresses without coordinates; ties and the
all-skipped case keep index 0. -/
def selectNearest (cur : LatLng α) (remaining : List (Address α)) : ℕ :=
  (remaining.enum.foldl
    (fun p ia =>
      match ia.2.coordinates with
      | none => p
      | some c =>
        let d := dist cur (latLngOfCoord c)
        if ltOptB d p.2 then (ia.1, some d) else p)
    ((0 : ℕ), (none : Option α))).1

/-- The greedy loop of `nearestNeighborRoute` (clustering.service.ts lines
258-290): repeatedly splice out the nearest remaining address and advance the
current location to it (when it has coordinates). -/
def nnGo : LatLng α → List (Address α) → List (Address α)
  | _, [] => []
  | cur, a0 :: rest0 =>
    let i := selectNearest dist cur (a0 :: rest0)
    match h : (a0 :: rest0).get? i with
    | none => a0 :: rest0
    | some nearest =>
      let rest := (a0 :: rest0).eraseIdx i
      let next := match nearest.coordinates with
                  | some c => latLngOfCoord c
                  | none => cur
      nearest :: nnGo next rest
termination_by _ remaining => remaining.length
decreasing_by
  simp_wf
  obtain ⟨hlt, -⟩ := List.get?_eq_some.mp h
  rw [List.length_eraseIdx, if_pos hlt]
  simp only [List.length_cons]
  omega

/-- `nearestNeighborRoute` (clustering.service.ts lines 258-290). -/
def nearestNeighborRoute (addresses : List (Address α))
    (bikeLocation : LatLng α) : List (Address α) :=
  nnGo dist bikeLocation addresses

/-- `calculateRouteDistance` (clustering.service.ts lines 326-358): the closed
tour bike → first → … → last → bike, with every leg whose endpoint lacks
coordinates contributing nothing. -/
def calculateRouteDistance (route : List (Address α))
    (bikeLocation : LatLng α) : α :=
  match route with
  | [] => 0
  | a0 :: _ =>
    let first := match a0.coordinates with
      | some c => dist bikeLocation (latLngOfCoord c)
      | none => 0
    let mid := ((route.zip route.tail).map fun p =>
        match p.1.coordinates, p.2.coordinates with
        | some c1, some c2 => dist (latLngOfCoord c1) (latLngOfCoord c2)
        | _, _ => 0).sum
    let lastLeg := match (route.getLastD a0).coordinates with
      | some c => dist (latLngOfCoord c) bikeLocation
      | none => 0
    first + mid + lastLeg

/-- The segment reversal of one 2-opt move (clustering.service.ts lines
308-310): reverse the slice between positions `i+1` and `j` inclusive. -/
def reverseSegment (route : List (Address α)) (i j : ℕ) : List (Address α) :=
  route.take (i + 1) ++ ((route.drop (i + 1)).take (j - i)).reverse
    ++ route.drop (j + 1)

/-- The `(i, j)` pairs visited by the double loop of `twoOptOptimization`
(clustering.service.ts lines 300-301): `0 ≤ i < n-1`, `i+2 ≤ j < n`. -/
def twoOptPairs (n : ℕ) : List (ℕ × ℕ) :=
  (List.range (n - 1)).flatMap fun i =>
    (List.range' (i + 2) (n - (i + 2))).map fun j => (i, j)

/-- One candidate move of `twoOptOptimization` (clustering.service.ts lines
302-317): skip the degenerate pair `(0, n-1)`, otherwise accept the reversed
route exactly when it strictly shortens the closed tour. -/
def twoOptStep (bikeLocation : LatLng α) (r : List (Address α)) (p : ℕ × ℕ) :
    List (Address α) :=
  if p.2 = r.length - 1 ∧ p.1 = 0 then r
  else
    let newRoute := reverseSegment r p.1 p.2
    if calculateRouteDistance dist newRoute bikeLocation
        < calculateRouteDistance dist r bikeLocation then newRoute else r

/-- One full pass of the double loop of `twoOptOptimization`. -/
def twoOptPass (bikeLocation : LatLng α) (r : List (Address α)) :
    List (Address α) :=
  (twoOptPairs r.length).foldl (twoOptStep dist bikeLocation) r

/-- The number of permutations of `r` with a strictly shorter closed tour.
Each improving pass strictly decreases it, so it bounds the number of passes
of the `while (improved)` loop of `twoOptOptimization`. -/
def countBetter (bikeLocation : LatLng α) (r : List (Address α)) : ℕ :=
  (r.permutations.filter fun p =>
    decide (calculateRouteDistance dist p bikeLocation
      < calculateRouteDistance dist r bikeLocation)).length

/-- The `while (improved)` loop of `twoOptOptimization` (clustering.service.ts
lines 293-323), indexed by an explicit pass budget.  A pass that accepts at
least one swap strictly decreases the closed tour length, hence strictly
decreases `countBetter`; a budget of `countBetter + 1` therefore runs the loop
to its fixed point exactly as the source does (`twoOptPass_twoOptGo_fix`
below). -/
def twoOptGo (bikeLocation : LatLng α) : ℕ → List (Address α) →
    List (Address α)
  | 0, r => r
  | fuel + 1, r =>
    let r2 := twoOptPass dist bikeLocation r
    if r2 = r then r else twoOptGo bikeLocation fuel r2

/-- `twoOptOptimization` (clustering.service.ts lines 293-323). -/
def twoOptOptimization (bikeLocation : LatLng α) (route : List (Address α)) :
    List (Address α) :=
  twoOptGo dist bikeLocation (countBetter dist bikeLocation route + 1) route

/-- `optimizeWalkingRoute` (clustering.service.ts lines 244-255). -/
def optimizeWalkingRoute (addresses : List (Address α))
    (bikeLocation : LatLng α) : List (Address α) :=
  if addresses.length ≤ 1 then addresses
  else if addresses.length = 2 then addresses
  else twoOptOptimization dist bikeLocation
    (nearestNeighborRoute dist addresses bikeLocation)

/-- `calculateWalkingStats` (clustering.service.ts lines 361-403): total
walking distance of the route (recomputing the bike location from the full
member list, as the source does) and the walking time in minutes. -/
def calculateWalkingStats (addresses walkingRoute : List (Address α)) :
    α × α :=
  let bikeLeg1 := match walkingRoute.head? with
    | some a0 =>
      match a0.coordinates with
      | some c => dist (calculateOptimalBikeLocation dist addresses)
          (latLngOfCoord c)
      | none => 0
    | none => 0
  let mid := ((walkingRoute.zip walkingRoute.tail).map fun p =>
      match p.1.coordinates, p.2.coordinates with
      | some c1, some c2 => dist (latLngOfCoord c1) (latLngOfCoord c2)
      | _, _ => 0).sum
  let bikeLeg2 := match walkingRoute.getLast? with
    | some aLast =>
      match aLast.coordinates with
      | some c => dist (latLngOfCoord c)
          (calculateOptimalBikeLocation dist addresses)
      | none => 0
    | none => 0
  let totalDistance := bikeLeg1 + mid + bikeLeg2
  (totalDistance, totalDistance / 1000 / s.walkingSpeed * 60)

/-- `createCluster` (clustering.service.ts lines 172-190). -/
def createCluster (id : String) (addresses : List (Address α)) : Cluster α :=
  let bikeLocation := calculateOptimalBikeLocation dist addresses
  let walkingRoute := optimizeWalkingRoute dist addresses bikeLocation
  let st := calculateWalkingStats dist s addresses walkingRoute
  { id := id
    addresses := addresses.map fun a => a.id
    bikeLocation := bikeLocation
    walkingRoute := walkingRoute.map fun a => a.id
    totalWalkingDistance := st.1
    totalWalkingTime := st.2 }

/-- A cluster whose member ids come from a non-empty list of addresses drawn
from `addresses`, with the bike anchor computed from those members — the shape
every cluster produced by `createCluster` has. -/
def IsClusterOf (addresses : List (Address α)) (c : Cluster α) : Prop :=
  ∃ ms, ms ≠ [] ∧ (∀ a ∈ ms, a ∈ addresses)
    ∧ c.addresses = ms.map (fun a => a.id)
    ∧ c.bikeLocation = calculateOptimalBikeLocation dist ms

/-- The outer seed-and-grow loop of `createClusters` (clustering.service.ts
lines 25-61): pop the first unassigned address as a seed, grow, emit the
cluster, repeat on what is left.  Each iteration removes at least the seed
from the unassigned list, so the loop is indexed by an iteration budget for
which the initial list length is exactly sufficient (`createClusters` passes
it; `seedAndGrow_flatten` shows no address is ever dropped). -/
def seedAndGrow : ℕ → ℕ → List (Address α) → List (Cluster α)
  | _, _, [] => []
  | 0, _, _ :: _ => []
  | fuel + 1, clusterId, seed :: rest =>
    let p := growCluster dist s [seed] rest
    createCluster dist s (String.append "cluster-" (toString clusterId)) p.1
      :: seedAndGrow fuel (clusterId + 1) p.2

/-- The address-id map of `redistributeSmallClusters` (clustering.service.ts
lines 74-76): a JavaScript `Map` built with `set`, so a later entry with the
same id overwrites an earlier one and `get` returns the last one set. -/
def lookupAddr (addresses : List (Address α)) (i : String) :
    Option (Address α) :=
  addresses.foldl (fun acc a => if a.id = i then some a else acc) none

/-- Reconstitution of a cluster's member addresses from their ids
(clustering.service.ts lines 92-94 and 106-108): `map` over the id map then
drop the undefined results. -/
def membersOf (addresses : List (Address α)) (c : Cluster α) :
    List (Address α) :=
  c.addresses.filterMap (lookupAddr addresses)

/-- The target-selection loop of `redistributeSmallClusters`
(clustering.service.ts lines 96-143): scan the kept clusters, skip targets
that would exceed `preferredClusterSize * 1.5` members after the merge,
require every small-cluster member within walking distance of some target
member, score the valid candidates and keep the index of the best score
(strictly above the running best, initialized to `-1`). -/
def findBestCluster (addresses : List (Address α))
    (optimized : List (Cluster α))
    (smallClusterAddresses : List (Address α)) : Option ℕ :=
  (optimized.enum.foldl
    (fun st ic =>
      let targetCluster := ic.2
      if ((targetCluster.addresses.length : α)
            + (smallClusterAddresses.length : α))
          > s.preferredClusterSize * (3 / 2) then st
      else
        let targetAddresses := membersOf addresses targetCluster
        let allWithinRange := smallClusterAddresses.all fun smallAddr =>
          match smallAddr.coordinates with
          | none => false
          | some sc => targetAddresses.any fun targetAddr =>
              match targetAddr.coordinates with
              | none => false
              | some tc => decide (dist (latLngOfCoord sc) (latLngOfCoord tc)
                  ≤ s.maxWalkingDistance)
        if allWithinRange then
          let targetCenter := calculateOptimalBikeLocation dist
            targetAddresses
          let smallCenter := calculateOptimalBikeLocation dist
            smallClusterAddresses
          let d := dist targetCenter smallCenter
          let score := (s.maxWalkingDistance - d)
            + (s.preferredClusterSize
                - (targetCluster.addresses.length : α)) * 100
          if score > st.1 then (score, some ic.1) else st
        else st)
    ((-1 : α), (none : Option ℕ))).2

/-- Handling of one small cluster by `redistributeSmallClusters`
(clustering.service.ts lines 91-166): merge it into the best target (rebuild
that cluster from the concatenated member lists, keeping the target's id and
slot) or, when no valid target exists, append it unchanged. -/
def processSmall (addresses : List (Address α))
    (optimized : List (Cluster α)) (smallCluster : Cluster α) :
    List (Cluster α) :=
  let smallClusterAddresses := membersOf addresses smallCluster
  match findBestCluster dist s addresses optimized smallClusterAddresses with
  | some idx =>
    match optimized.get? idx with
    | some bestCluster =>
      let mergedAddresses := membersOf addresses bestCluster
        ++ smallClusterAddresses
      let mergedCluster := createCluster dist s bestCluster.id
        mergedAddresses
      optimized.set idx mergedCluster
    | none => optimized ++ [smallCluster]
  | none => optimized ++ [smallCluster]

/-- `redistributeSmallClusters` (clustering.service.ts lines 70-169). -/
def redistributeSmallClusters (clusters : List (Cluster α))
    (addresses : List (Address α)) : List (Cluster α) :=
  let minClusterSize : ℤ := max 2 ⌊s.preferredClusterSize * (2 / 5 : α)⌋
  let part := clusters.partition fun c =>
    decide ((c.addresses.length : ℤ) < minClusterSize)
  part.1.foldl (processSmall dist s addresses) part.2

/-- `createClusters` (clustering.service.ts lines 20-67): seed-and-grow, then
the redistribution pass over the original address list. -/
def createClusters (addresses : List (Address α)) : List (Cluster α) :=
  redistributeSmallClusters dist s
    (seedAndGrow dist s addresses.length 0 addresses) addresses

/-- The consecutive anchor-to-anchor legs of `createBikeWalkRoute`
(clustering.service.ts lines 420-424 and 434-438). -/
def legsSum : List (Cluster α) → α
  | [] => 0
  | [_] => 0
  | a :: b :: t => dist a.bikeLocation b.bikeLocation + legsSum (b :: t)

/-- The cycling-distance computation of `createBikeWalkRoute`
(clustering.service.ts lines 410-439): with a home base and at least one
cluster, home → first anchor, then consecutive anchors in cluster order, then
last anchor → home; otherwise the consecutive legs only. -/
def totalCyclingDistanceOf (homeBase : Option (LatLng α))
    (clusters : List (Cluster α)) : α :=
  match homeBase, clusters with
  | some hb, c0 :: _ =>
    dist hb c0.bikeLocation + legsSum dist clusters
      + dist (clusters.getLastD c0).bikeLocation hb
  | _, _ => legsSum dist clusters

/-- `createBikeWalkRoute` (clustering.service.ts lines 406-458).  The id's
`Date.now()` timestamp is environmental and injected as `now`. -/
def createBikeWalkRoute (now : String) (addresses : List (Address α)) :
    BikeWalkRoute α :=
  let clusters := createClusters dist s addresses
  let totalCyclingDistance := totalCyclingDistanceOf dist s.homeBase clusters
  let totalWalkingDistance := (clusters.map fun c =>
    c.totalWalkingDistance).sum
  let totalWalkingTime := (clusters.map fun c => c.totalWalkingTime).sum
  let totalCyclingTime := totalCyclingDistance / 1000 / s.cyclingSpeed * 60
  let totalParkingTime := (clusters.length : α) * s.bikeParkingTime / 60
  { id := String.append "bike-walk-route-" now
    clusters := clusters
    totalDistance := totalWalkingDistance + totalCyclingDistance
    totalTime := totalWalkingTime + totalCyclingTime + totalParkingTime
    walkingDistance := totalWalkingDistance
    cyclingDistance := totalCyclingDistance
    walkingTime := totalWalkingTime
    cyclingTime := totalCyclingTime
    settings := s }

/-- Extract the anchor nearest to the current position together with the
remaining anchors in order (first minimum wins); the construction step of the
nearest-neighbor heuristic of spec section 4.6. -/
def pickNearest (cur : LatLng α) : LatLng α → List (LatLng α) →
    LatLng α × List (LatLng α)
  | best, [] => (best, [])
  | best, a :: rest =>
    if dist cur a < dist cur best then
      let p := pickNearest cur a rest
      (p.1, best :: p.2)
    else
      let p := pickNearest cur best rest
      (p.1, a :: p.2)

/-- Nearest-neighbor ordering of a list of anchors starting from `cur`,
following the words of spec section 4.6. -/
def specNNTour : LatLng α → List (LatLng α) → List (LatLng α)
  | _, [] => []
  | cur, a :: rest =>
    let p := pickNearest dist cur a rest
    p.1 :: specNNTour p.1 p.2
termination_by _ l => l.length
decreasing_by
  simp_wf
  have key : ∀ (l : List (LatLng α)) (cur best : LatLng α),
      ((pickNearest dist cur best l).2).length = l.length := by
    intro l
    induction l with
    | nil => intro cur best; simp [pickNearest]
    | cons x t ih =>
      intro cur best
      rw [pickNearest]
      by_cases hc : dist cur x < dist cur best
      · rw [if_pos hc]; simp [ih]
      · rw [if_neg hc]; simp [ih]
  rw [key]
  omega

/-- The legs of a point sequence starting at `cur`. -/
def pathLegs : LatLng α → List (LatLng α) → α
  | _, [] => 0
  | cur, a :: rest => dist cur a + pathLegs a rest

/-- The inter-cluster cycling distance demanded by spec section 4.6 and
testable-property scenario 5: order the cluster anchors by nearest neighbor
starting from the home base, and sum home → first anchor, the anchor legs in
that order, and last anchor → home. -/
def specCyclingDistance (homeBase : LatLng α) (clusters : List (Cluster α)) :
    α :=
  let tour := specNNTour dist homeBase (clusters.map fun c => c.bikeLocation)
  match tour with
  | [] => 0
  | a :: rest => dist homeBase a + pathLegs dist a rest
      + dist ((a :: rest).getLastD a) homeBase

end Clustering

/-- JavaScript `Math.atan2 y x`, the argument of the complex number
`x + y i`. -/
noncomputable def atan2 (y x : ℝ) : ℝ :=
  Complex.arg ⟨x, y⟩

/-- `calculateDistance` of clustering.service.ts lines 7-17: the haversine
great-circle distance in meters with Earth radius 6 371 000 m.  This is the
function the clustering service passes around; all pipeline definitions take
it as the `dist` parameter. -/
noncomputable def haversineDistance (p q : LatLng ℝ) : ℝ :=
  let dLat := (q.lat - p.lat) * Real.pi / 180
  let dLng := (q.lng - p.lng) * Real.pi / 180
  let a := Real.sin (dLat / 2) * Real.sin (dLat / 2)
    + Real.cos (p.lat * Real.pi / 180) * Real.cos (q.lat * Real.pi / 180)
      * (Real.sin (dLng / 2) * Real.sin (dLng / 2))
  let c := 2 * atan2 (Real.sqrt a) (Real.sqrt (1 - a))
  6371000 * c

/-- Home base of the inter-cluster sequencing counterexample. -/
noncomputable def cxHome : LatLng ℝ := ⟨52, 5⟩

/-- Counterexample cluster with anchor 0.3° of latitude north of home. -/
noncomputable def cxClusterA : Cluster ℝ := ⟨"c-A", [], ⟨52 + 3 / 10, 5⟩, [], 0, 0⟩

/-- Counterexample cluster with anchor 0.1° of latitude north of home. -/
noncomputable def cxClusterB : Cluster ℝ := ⟨"c-B", [], ⟨52 + 1 / 10, 5⟩, [], 0, 0⟩

/-- Counterexample cluster with anchor 0.2° of latitude north of home. -/
noncomputable def cxClusterC : Cluster ℝ := ⟨"c-C", [], ⟨52 + 2 / 10, 5⟩, [], 0, 0⟩

/-- The postal fields of the `Address` interface of `src/pages/Index.tsx`,
as read by the geocoding services. -/
structure AddressInfo where
  id : String
  street : String
  houseNumber : String
  postalCode : String
  city : String
  deriving DecidableEq, Repr

/-- Accumulate the leading decimal digits of a character list, stopping at the
first non-digit. -/
def digitsVal : List Char → ℕ → ℕ
  | [], acc => acc
  | c :: cs, acc =>
    if c.isDigit then digitsVal cs (acc * 10 + (c.toNat - 48)) else acc

/-- JavaScript `parseInt(s, 10)`: skip leading whitespace, take an optional
sign, then the leading run of decimal digits; `none` models `NaN` (no digit
found). -/
def parseLeadingInt (str : String) : Option ℤ :=
  let cs := str.toList.dropWhile fun c => c.isWhitespace
  let sc : ℤ × List Char :=
    match cs with
    | '-' :: t => (-1, t)
    | '+' :: t => (1, t)
    | _ => (1, cs)
  match sc.2 with
  | [] => none
  | c :: _ => if c.isDigit then some (sc.1 * (digitsVal sc.2 0 : ℤ)) else none

/-- The regional lookup table of `getPostalCodeCoordinates`
(coordinates.service.ts lines 14-122), keyed by the parsed four-digit code;
`none` (JavaScript `NaN`) fails every range check and lands on the default.
Results are `[longitude, latitude]` pairs. -/
def postalCodeTable : Option ℤ → ℚ × ℚ
  | none => (5.2913, 52.1326)
  | some code =>
    if 1000 ≤ code ∧ code ≤ 1099 then (4.9041, 52.3676)
    else if 1100 ≤ code ∧ code ≤ 1199 then (4.8952, 52.3702)
    else if 1200 ≤ code ∧ code ≤ 1299 then (4.8600, 52.3400)
    else if 1300 ≤ code ∧ code ≤ 1399 then (5.2213, 52.1326)
    else if 1400 ≤ code ∧ code ≤ 1499 then (5.1600, 52.2200)
    else if 1500 ≤ code ∧ code ≤ 1599 then (4.8180, 52.4380)
    else if 1600 ≤ code ∧ code ≤ 1699 then (4.7700, 52.5000)
    else if 1700 ≤ code ∧ code ≤ 1799 then (4.8500, 52.6700)
    else if 1800 ≤ code ∧ code ≤ 1899 then (4.7500, 52.6300)
    else if 1900 ≤ code ∧ code ≤ 1999 then (4.6180, 52.4584)
    else if 2000 ≤ code ∧ code ≤ 2099 then (4.3571, 52.1326)
    else if 2100 ≤ code ∧ code ≤ 2199 then (4.3200, 52.1800)
    else if 2200 ≤ code ∧ code ≤ 2299 then (4.5041, 52.1676)
    else if 2300 ≤ code ∧ code ≤ 2399 then (4.4777, 52.1601)
    else if 2400 ≤ code ∧ code ≤ 2499 then (4.6500, 52.1300)
    else if 2500 ≤ code ∧ code ≤ 2599 then (4.3013, 52.0705)
    else if 2600 ≤ code ∧ code ≤ 2699 then (4.3600, 52.0100)
    else if 2700 ≤ code ∧ code ≤ 2799 then (4.4900, 52.0600)
    else if 2800 ≤ code ∧ code ≤ 2899 then (4.7100, 52.0200)
    else if 2900 ≤ code ∧ code ≤ 2999 then (4.5400, 52.0400)
    else if 3000 ≤ code ∧ code ≤ 3199 then (4.4777, 51.9225)
    else if 3200 ≤ code ∧ code ≤ 3299 then (4.3300, 51.8500)
    else if 3300 ≤ code ∧ code ≤ 3399 then (4.6700, 51.8100)
    else if 3400 ≤ code ∧ code ≤ 3499 then (5.0400, 52.0200)
    else if 3500 ≤ code ∧ code ≤ 3599 then (5.1214, 52.0907)
    else if 3600 ≤ code ∧ code ≤ 3699 then (5.1300, 52.1400)
    else if 3700 ≤ code ∧ code ≤ 3799 then (5.2300, 52.0900)
    else if 3800 ≤ code ∧ code ≤ 3899 then (5.3878, 52.1561)
    else if 3900 ≤ code ∧ code ≤ 3999 then (5.2700, 51.9900)
    else if 4000 ≤ code ∧ code ≤ 4099 then (5.4300, 51.8900)
    else if 4100 ≤ code ∧ code ≤ 4199 then (5.1800, 51.8300)
    else if 4200 ≤ code ∧ code ≤ 4299 then (4.9700, 51.8300)
    else if 4300 ≤ code ∧ code ≤ 4399 then (3.9200, 51.6500)
    else if 4400 ≤ code ∧ code ≤ 4499 then (3.9300, 51.5000)
    else if 4500 ≤ code ∧ code ≤ 4599 then (3.6100, 51.3700)
    else if 4600 ≤ code ∧ code ≤ 4699 then (4.2900, 51.4900)
    else if 4700 ≤ code ∧ code ≤ 4799 then (4.4500, 51.5300)
    else if 4800 ≤ code ∧ code ≤ 4899 then (4.7760, 51.5719)
    else if 4900 ≤ code ∧ code ≤ 4999 then (4.7000, 51.6700)
    else if 5000 ≤ code ∧ code ≤ 5099 then (5.0919, 51.5555)
    else if 5100 ≤ code ∧ code ≤ 5199 then (5.0600, 51.4500)
    else if 5200 ≤ code ∧ code ≤ 5299 then (5.3037, 51.6878)
    else if 5300 ≤ code ∧ code ≤ 5399 then (5.2400, 51.8100)
    else if 5400 ≤ code ∧ code ≤ 5499 then (5.6200, 51.6600)
    else if 5500 ≤ code ∧ code ≤ 5599 then (5.4000, 51.4200)
    else if 5600 ≤ code ∧ code ≤ 5699 then (5.4697, 51.4416)
    else if 5700 ≤ code ∧ code ≤ 5799 then (5.6600, 51.4800)
    else if 5800 ≤ code ∧ code ≤ 5899 then (5.9700, 51.5300)
    else if 5900 ≤ code ∧ code ≤ 5999 then (6.1600, 51.3700)
    else if 6000 ≤ code ∧ code ≤ 6099 then (5.7100, 51.2500)
    else if 6100 ≤ code ∧ code ≤ 6199 then (5.8000, 50.9500)
    else if 6200 ≤ code ∧ code ≤ 6299 then (5.6881, 50.8429)
    else if 6300 ≤ code ∧ code ≤ 6399 then (5.8300, 50.8700)
    else if 6400 ≤ code ∧ code ≤ 6499 then (5.9800, 50.8900)
    else if 6500 ≤ code ∧ code ≤ 6599 then (5.8669, 51.8426)
    else if 6600 ≤ code ∧ code ≤ 6699 then (5.7300, 51.8000)
    else if 6700 ≤ code ∧ code ≤ 6799 then (5.6681, 51.9697)
    else if 6800 ≤ code ∧ code ≤ 6899 then (5.8987, 51.9851)
    else if 6900 ≤ code ∧ code ≤ 6999 then (6.0700, 51.9100)
    else if 7000 ≤ code ∧ code ≤ 7099 then (6.2969, 51.965)
    else if 7100 ≤ code ∧ code ≤ 7199 then (6.1400, 52.1000)
    else if 7200 ≤ code ∧ code ≤ 7299 then (6.2003, 52.1401)
    else if 7300 ≤ code ∧ code ≤ 7399 then (5.9694, 52.2112)
    else if 7400 ≤ code ∧ code ≤ 7499 then (6.1639, 52.255)
    else if 7500 ≤ code ∧ code ≤ 7599 then (6.8939, 52.2215)
    else if 7600 ≤ code ∧ code ≤ 7699 then (6.6611, 52.3508)
    else if 7700 ≤ code ∧ code ≤ 7799 then (6.4500, 52.6000)
    else if 7800 ≤ code ∧ code ≤ 7899 then (6.9069, 52.7797)
    else if 7900 ≤ code ∧ code ≤ 7999 then (6.5900, 52.5200)
    else if 8000 ≤ code ∧ code ≤ 8199 then (6.0919, 52.5125)
    else if 8200 ≤ code ∧ code ≤ 8299 then (5.4714, 52.5181)
    else if 8300 ≤ code ∧ code ≤ 8399 then (5.7500, 52.7100)
    else if 8400 ≤ code ∧ code ≤ 8499 then (6.0700, 52.9900)
    else if 8500 ≤ code ∧ code ≤ 8599 then (5.9661, 52.9667)
    else if 8600 ≤ code ∧ code ≤ 8699 then (5.6581, 53.0311)
    else if 8700 ≤ code ∧ code ≤ 8799 then (5.5189, 53.0894)
    else if 8800 ≤ code ∧ code ≤ 8899 then (5.5422, 53.1858)
    else if 8900 ≤ code ∧ code ≤ 8999 then (5.7950, 53.2012)
    else if 9000 ≤ code ∧ code ≤ 9099 then (6.5665, 53.2194)
    else if 9100 ≤ code ∧ code ≤ 9199 then (6.5000, 53.1100)
    else if 9200 ≤ code ∧ code ≤ 9299 then (6.0989, 52.9497)
    else if 9300 ≤ code ∧ code ≤ 9399 then (6.3667, 53.1333)
    else if 9400 ≤ code ∧ code ≤ 9499 then (6.5611, 52.9956)
    else if 9500 ≤ code ∧ code ≤ 9599 then (6.9500, 52.9900)
    else if 9600 ≤ code ∧ code ≤ 9699 then (6.7500, 53.1600)
    else if 9700 ≤ code ∧ code ≤ 9799 then (6.5900, 53.2400)
    else if 9800 ≤ code ∧ code ≤ 9899 then (6.3500, 53.4000)
    else if 9900 ≤ code ∧ code ≤ 9999 then (6.8500, 53.3200)
    else (5.2913, 52.1326)

/-- `getPostalCodeCoordinates` (coordinates.service.ts lines 11-123):
`parseInt(postalCode.substring(0, 4))` fed into the regional range table. -/
def getPostalCodeCoordinates (postalCode : String) : ℚ × ℚ :=
  postalCodeTable (parseLeadingInt (postalCode.take 4))

/-- The `source` tag of `GeocodeResult` (geocoding.service.ts line 10). -/
inductive GeocodeSource where
  | api
  | cache
  | fallback
  deriving DecidableEq, Repr

/-- The `accuracy` tag shared by both geocoding services. -/
inductive GeocodeAccuracy where
  | exact
  | interpolated
  | approximate
  deriving DecidableEq, Repr

/-- `GeocodeResult` (geocoding.service.ts lines 6-12); `accuracy` is an
optional field there, absent unless a constructor sets it. -/
structure GeocodeResult where
  coordinates : ℚ × ℚ
  formatted : String
  confidence : ℚ
  source : GeocodeSource
  accuracy : Option GeocodeAccuracy
  deriving DecidableEq, Repr

/-- `createFallbackResult` (geocoding.service.ts lines 89-97): the postal-code
table coordinate, confidence 0.3, source `fallback`, and no `accuracy` field
set. -/
def createFallbackResult (address : AddressInfo) : GeocodeResult :=
  { coordinates := getPostalCodeCoordinates address.postalCode
    formatted := address.street ++ " " ++ address.houseNumber ++ ", "
      ++ address.postalCode ++ " " ++ address.city
    confidence := 0.3
    source := GeocodeSource.fallback
    accuracy := none }

/-- The `source` tag of `DutchGeocodeResult` (Dutch geocoding service). -/
inductive DutchSource where
  | pdok
  | bag
  | cache
  | fallback
  deriving DecidableEq, Repr

/-- `DutchGeocodeResult` of the Dutch geocoding service (required `accuracy`
field). -/
structure DutchGeocodeResult where
  coordinates : ℚ × ℚ
  formatted : String
  confidence : ℚ
  source : DutchSource
  accuracy : GeocodeAccuracy
  deriving DecidableEq, Repr

/-- `createMinimalFallback` of the Dutch geocoding service (coordinates
service file, lines 267-298): a five-region table on the parsed postal-code
prefix, confidence 0.1, source `fallback`, accuracy `approximate`. -/
def createMinimalFallback (address : AddressInfo) : DutchGeocodeResult :=
  let postalCode := parseLeadingInt (address.postalCode.take 4)
  let cr : (ℚ × ℚ) × String :=
    match postalCode with
    | none => ((5.2913, 52.1326), "Nederland centrum")
    | some n =>
      if 1000 ≤ n ∧ n ≤ 1999 then ((4.9041, 52.3676), "Amsterdam")
      else if 2000 ≤ n ∧ n ≤ 2999 then ((4.3013, 52.0705), "Den Haag")
      else if 3000 ≤ n ∧ n ≤ 3999 then ((4.4777, 51.9225), "Rotterdam")
      else if 5000 ≤ n ∧ n ≤ 5999 then ((5.1214, 52.0907), "Utrecht/Eindhoven")
      else ((5.2913, 52.1326), "Nederland centrum")
  { coordinates := cr.1
    formatted := address.street ++ " " ++ address.houseNumber ++ ", "
      ++ address.postalCode ++ " " ++ address.city ++ " (regio " ++ cr.2 ++ ")"
    confidence := 0.1
    source := DutchSource.fallback
    accuracy := GeocodeAccuracy.approximate }

section SingleMode

variable {α : Type} [LinearOrderedField α]

/-- An address as seen by the single-mode optimizer of the route optimization
component (`optimizeRoute`): a package-type tag and a resolved `[lat, lng]`
coordinate.  Geocoding is network I/O performed before the algorithm runs;
the embedding takes the resolved list as input. -/
structure P4Address (α : Type) where
  packageType : ℕ
  coordinates : α × α
  deriving DecidableEq, Repr

variable (dist4 : α × α → α × α → α) (prioritizePackageType : Bool)

/-- The candidate scoring of the single-mode nearest-neighbor loop: plain
distance, discounted by the factor 0.8 when the same-package-type preference
is on and the candidate shares the current stop's type. -/
def p4Effective (cur cand : P4Address α) : α :=
  let d := dist4 cur.coordinates cand.coordinates
  if prioritizePackageType ∧ cur.packageType = cand.packageType then
    d * (4 / 5)
  else d

/-- Extract the unvisited stop with the smallest (possibly discounted)
distance from the current stop, scanning in ascending original order with a
strict comparison, so the earliest minimum wins; returns it together with the
remaining stops in order. -/
def p4Pick (cur : P4Address α) : ℕ × P4Address α → List (ℕ × P4Address α) →
    (ℕ × P4Address α) × List (ℕ × P4Address α)
  | best, [] => (best, [])
  | best, a :: rest =>
    if p4Effective dist4 prioritizePackageType cur a.2
        < p4Effective dist4 prioritizePackageType cur best.2 then
      let p := p4Pick cur a rest
      (p.1, best :: p.2)
    else
      let p := p4Pick cur best rest
      (p.1, a :: p.2)

/-- The greedy loop of the single-mode optimizer: repeatedly move to the
nearest unvisited stop, appending its original index and accumulating the
selected (possibly discounted) distance. -/
def p4Go : P4Address α → List (ℕ × P4Address α) → List ℕ × α
  | _, [] => ([], 0)
  | cur, a :: rest =>
    let p := p4Pick dist4 prioritizePackageType cur a rest
    let d := p4Effective dist4 prioritizePackageType cur p.1.2
    let r := p4Go p.1.2 p.2
    (p.1.1 :: r.1, d + r.2)
termination_by _ l => l.length
decreasing_by
  simp_wf
  have key : ∀ (l : List (ℕ × P4Address α)) (cur : P4Address α)
      (best : ℕ × P4Address α),
      ((p4Pick dist4 prioritizePackageType cur best l).2).length = l.length := by
    intro l
    induction l with
    | nil => intro cur best; simp [p4Pick]
    | cons x t ih =>
      intro cur best
      rw [p4Pick]
      by_cases hc : p4Effective dist4 prioritizePackageType cur x.2
          < p4Effective dist4 prioritizePackageType cur best.2
      · rw [if_pos hc]; simp [ih]
      · rw [if_neg hc]; simp [ih]
  rw [key]
  omega

/-- `optimizeRoute` of the route optimization component (part_004 lines
69-141): empty input short-circuits to an empty order with zero distance;
otherwise a nearest-neighbor pass starting at the first stop, emitting
original indices. -/
def optimizeRoute (addressList : List (P4Address α)) : List ℕ × α :=
  match addressList.enum with
  | [] => ([], 0)
  | v0 :: vrest =>
    let r := p4Go dist4 prioritizePackageType v0.2 vrest
    (v0.1 :: r.1, r.2)

end SingleMode

/-- Claim C8: the postal-code fallback coordinate is a pure deterministic
function of the postal code's four-digit prefix — two postal codes with the
same prefix map to the identical coordinate (and, the embedding being a pure
function, two invocations on the same code trivially agree). -/
theorem claim_C8 (p1 p2 : String) (h : p1.take 4 = p2.take 4) :
    getPostalCodeCoordinates p1 = getPostalCodeCoordinates p2 := by
  unfold getPostalCodeCoordinates
  rw [h]

/-- Witness for C8 at the spec's known edge case 1991: two postal codes with
prefix "1991" agree and hit the Castricum/Velserbroek table entry. -/
theorem claim_C8_witness :
    ("1991 AB".take 4 = "1991ZZ".take 4)
      ∧ getPostalCodeCoordinates "1991 AB" = getPostalCodeCoordinates "1991ZZ"
      ∧ getPostalCodeCoordinates "1991 AB" = (4.6180, 52.4584) :=
  ⟨by decide, claim_C8 "1991 AB" "1991ZZ" (by decide), by rfl⟩

/-- Claim C7, counterexample: the OpenCage-service fallback result does not
set the `accuracy` field at all, so it is not flagged
`accuracy = approximate` as the claim states. -/
theorem claim_C7_counterexample :
    (createFallbackResult
      ⟨"a1", "Dorpsstraat", "1", "9999 ZZ", "Appingedam"⟩).accuracy
      = none := by
  rfl

/-- Claim C7 as amended: every fallback result of either geocoding service is
flagged with `source = fallback` and confidence at most 0.3; the Dutch
service's fallback additionally sets `accuracy = approximate`, while the
OpenCage service's fallback leaves `accuracy` unset. -/
theorem claim_C7_amended (a : AddressInfo) :
    (createFallbackResult a).confidence ≤ 3 / 10
      ∧ (createFallbackResult a).source = GeocodeSource.fallback
      ∧ (createFallbackResult a).accuracy = none
      ∧ (createMinimalFallback a).confidence ≤ 3 / 10
      ∧ (createMinimalFallback a).source = DutchSource.fallback
      ∧ (createMinimalFallback a).accuracy = GeocodeAccuracy.approximate := by
  refine ⟨?_, rfl, rfl, ?_, rfl, rfl⟩
  · show (0.3 : ℚ) ≤ 3 / 10
    norm_num
  · show (0.1 : ℚ) ≤ 3 / 10
    norm_num

/-- Claim C9: on an empty stop list, route construction returns an empty
result — no clusters, zero distances and times — and the single-mode
optimizer returns an empty order with zero distance; neither errors. -/
theorem claim_C9 {α : Type} [LinearOrderedField α] [FloorRing α]
    (dist : LatLng α → LatLng α → α) (s : BikeWalkSettings α) (now : String)
    (dist4 : α × α → α × α → α) (prioritize : Bool) :
    (createBikeWalkRoute dist s now []).clusters = []
      ∧ (createBikeWalkRoute dist s now []).totalDistance = 0
      ∧ (createBikeWalkRoute dist s now []).totalTime = 0
      ∧ (createBikeWalkRoute dist s now []).walkingDistance = 0
      ∧ (createBikeWalkRoute dist s now []).cyclingDistance = 0
      ∧ (createBikeWalkRoute dist s now []).walkingTime = 0
      ∧ (createBikeWalkRoute dist s now []).cyclingTime = 0
      ∧ optimizeRoute dist4 prioritize ([] : List (P4Address α)) = ([], 0) := by
  have hcl : createClusters dist s ([] : List (Address α)) = [] := by
    simp [createClusters, seedAndGrow, redistributeSmallClusters,
      List.partition_eq_filter_filter]
  refine ⟨?_, ?_, ?_, ?_, ?_, ?_, ?_, ?_⟩ <;>
    simp [createBikeWalkRoute, hcl, totalCyclingDistanceOf, legsSum,
      optimizeRoute]

/-- Claim C10: with no coordinate-bearing member the anchor computation
returns the fixed Utrecht constant (lat 52.0907, lng 5.1214), a synthetic
point; with exactly one coordinate-bearing member it returns that member's
coordinate. -/
theorem claim_C10 {α : Type} [LinearOrderedField α] [FloorRing α]
    (dist : LatLng α → LatLng α → α) (addresses : List (Address α)) :
    ((∀ a ∈ addresses, a.coordinates = none) →
      calculateOptimalBikeLocation dist addresses
        = ⟨(520907 : α) / 10000, (51214 : α) / 10000⟩)
    ∧ (∀ c : α × α,
        addresses.filterMap (fun a => a.coordinates) = [c] →
        calculateOptimalBikeLocation dist addresses = latLngOfCoord c) := by
  constructor
  · intro h
    have hv : addresses.filterMap (fun a => a.coordinates) = [] := by
      rw [List.filterMap_eq_nil_iff]
      intro a ha
      exact h a ha
    simp [calculateOptimalBikeLocation, hv]
  · intro c hc
    simp [calculateOptimalBikeLocation, hc]

/-- Witness for C10: a singleton list with no coordinates yields the Utrecht
constant, and a list whose only resolved member has coordinates `(1, 2)`
yields exactly that member's position. -/
theorem claim_C10_witness :
    calculateOptimalBikeLocation (fun _ _ => (0 : ℚ)) [⟨"x", none⟩]
        = ⟨(520907 : ℚ) / 10000, (51214 : ℚ) / 10000⟩
      ∧ calculateOptimalBikeLocation (fun _ _ => (0 : ℚ))
          [⟨"y", some (1, 2)⟩, ⟨"z", none⟩] = ⟨2, 1⟩ :=
  ⟨(claim_C10 (fun _ _ => (0 : ℚ)) [⟨"x", none⟩]).1 (by decide),
   (claim_C10 (fun _ _ => (0 : ℚ)) [⟨"y", some (1, 2)⟩, ⟨"z", none⟩]).2
     (1, 2) (by decide)⟩

section RedistributeCount

variable {α : Type} [LinearOrderedField α] [FloorRing α]
variable (dist : LatLng α → LatLng α → α) (s : BikeWalkSettings α)

/-- One redistribution step either rebuilds an existing slot (merge) or
appends the small cluster unchanged. -/
theorem processSmall_length_or_append (addresses : List (Address α))
    (opt : List (Cluster α)) (sc : Cluster α) :
    (processSmall dist s addresses opt sc).length = opt.length
      ∨ processSmall dist s addresses opt sc = opt ++ [sc] := by
  simp only [processSmall]
  split
  · split
    · exact Or.inl (List.length_set ..)
    · exact Or.inr rfl
  · exact Or.inr rfl

/-- Folding the redistribution step adds at most one cluster per small
cluster. -/
theorem foldl_processSmall_length (addresses : List (Address α)) :
    ∀ (smalls : List (Cluster α)) (opt : List (Cluster α)),
      (smalls.foldl (processSmall dist s addresses) opt).length
        ≤ opt.length + smalls.length := by
  intro smalls
  induction smalls with
  | nil => intro opt; simp
  | cons sc t ih =>
    intro opt
    have step : (processSmall dist s addresses opt sc).length
        ≤ opt.length + 1 := by
      rcases processSmall_length_or_append dist s addresses opt sc with h | h
      · omega
      · rw [h]; simp
    calc (List.foldl (processSmall dist s addresses)
            (processSmall dist s addresses opt sc) t).length
        ≤ (processSmall dist s addresses opt sc).length + t.length := ih _
      _ ≤ opt.length + 1 + t.length := by omega
      _ = opt.length + (t.length + 1) := by omega
      _ = opt.length + (sc :: t).length := by simp

end RedistributeCount

/-- Claim C6: the redistribution pass never increases the number of clusters;
each small cluster is either merged into an existing slot (length preserved)
or appended unchanged, and no other cluster is ever created. -/
theorem claim_C6 {α : Type} [LinearOrderedField α] [FloorRing α]
    (dist : LatLng α → LatLng α → α) (s : BikeWalkSettings α)
    (clusters : List (Cluster α)) (addresses : List (Address α))
    (opt : List (Cluster α)) (sc : Cluster α) :
    (redistributeSmallClusters dist s clusters addresses).length
        ≤ clusters.length
      ∧ ((processSmall dist s addresses opt sc).length = opt.length
          ∨ processSmall dist s addresses opt sc = opt ++ [sc]) := by
  refine ⟨?_, processSmall_length_or_append dist s addresses opt sc⟩
  simp only [redistributeSmallClusters, List.partition_eq_filter_filter]
  set p := fun c : Cluster α =>
    decide ((c.addresses.length : ℤ)
      < max 2 ⌊s.preferredClusterSize * (2 / 5 : α)⌋) with hp
  have hlen := (List.filter_append_perm p clusters).length_eq
  rw [List.length_append] at hlen
  have hcomp : clusters.filter (fun x => !p x) = clusters.filter (not ∘ p) :=
    rfl
  have hb := foldl_processSmall_length dist s addresses (clusters.filter p)
    (clusters.filter (not ∘ p))
  rw [hcomp] at hlen
  omega

section TwoOptFacts

variable {α : Type} [LinearOrderedField α] [FloorRing α]
variable (dist : LatLng α → LatLng α → α) (bl : LatLng α)

/-- Reversing an inner segment permutes the route. -/
theorem reverseSegment_perm (r : List (Address α)) (i j : ℕ) (hij : i ≤ j) :
    (reverseSegment r i j).Perm r := by
  unfold reverseSegment
  rw [List.append_assoc]
  conv_rhs => rw [← List.take_append_drop (i + 1) r]
  refine List.Perm.append_left _ ?_
  have hdd : (r.drop (i + 1)).drop (j - i) = r.drop (j + 1) := by
    rw [List.drop_drop]
    congr 1
    omega
  conv_rhs => rw [← List.take_append_drop (j - i) (r.drop (i + 1)), hdd]
  exact List.Perm.append_right _ (List.reverse_perm _)

/-- A 2-opt step either keeps the route or replaces it by a segment reversal
that strictly shortens the closed tour. -/
theorem twoOptStep_cases (r : List (Address α)) (p : ℕ × ℕ) :
    twoOptStep dist bl r p = r
      ∨ (twoOptStep dist bl r p = reverseSegment r p.1 p.2
          ∧ calculateRouteDistance dist (twoOptStep dist bl r p) bl
              < calculateRouteDistance dist r bl) := by
  simp only [twoOptStep]
  split
  · exact Or.inl rfl
  · split
    · next h => exact Or.inr ⟨rfl, h⟩
    · exact Or.inl rfl

/-- Membership in the 2-opt pair list implies `i ≤ j`. -/
theorem twoOptPairs_le (n : ℕ) : ∀ p ∈ twoOptPairs n, p.1 ≤ p.2 := by
  intro p hp
  unfold twoOptPairs at hp
  rw [List.mem_flatMap] at hp
  obtain ⟨i, -, hmem⟩ := hp
  rw [List.mem_map] at hmem
  obtain ⟨j, hj, rfl⟩ := hmem
  rw [List.mem_range'] at hj
  obtain ⟨k, -, rfl⟩ := hj
  omega

/-- Folding 2-opt steps over pairs with `i ≤ j` permutes the route. -/
theorem foldl_twoOptStep_perm (ps : List (ℕ × ℕ))
    (hps : ∀ p ∈ ps, p.1 ≤ p.2) :
    ∀ r : List (Address α), ((ps.foldl (twoOptStep dist bl) r).Perm r) := by
  induction ps with
  | nil => intro r; simp
  | cons p t ih =>
    intro r
    have h1 : (twoOptStep dist bl r p).Perm r := by
      rcases twoOptStep_cases dist bl r p with h | ⟨h, -⟩
      · rw [h]
      · rw [h]
        exact reverseSegment_perm r p.1 p.2 (hps p (List.mem_cons_self p t))
    simp only [List.foldl_cons]
    exact (ih (fun q hq => hps q (List.mem_cons_of_mem p hq)) _).trans h1

/-- Folding 2-opt steps never lengthens the closed tour, and any change
strictly shortens it. -/
theorem foldl_twoOptStep_le (ps : List (ℕ × ℕ)) :
    ∀ r : List (Address α),
      calculateRouteDistance dist (ps.foldl (twoOptStep dist bl) r) bl
          ≤ calculateRouteDistance dist r bl
        ∧ (ps.foldl (twoOptStep dist bl) r = r
            ∨ calculateRouteDistance dist (ps.foldl (twoOptStep dist bl) r) bl
                < calculateRouteDistance dist r bl) := by
  induction ps with
  | nil => intro r; exact ⟨le_refl _, Or.inl rfl⟩
  | cons p t ih =>
    intro r
    simp only [List.foldl_cons]
    rcases twoOptStep_cases dist bl r p with h | ⟨-, hlt⟩
    · rw [h]
      exact ih r
    · obtain ⟨hle2, _⟩ := ih (twoOptStep dist bl r p)
      exact ⟨le_of_lt (lt_of_le_of_lt hle2 hlt), Or.inr
        (lt_of_le_of_lt hle2 hlt)⟩

/-- A full 2-opt pass permutes the route. -/
theorem twoOptPass_perm (r : List (Address α)) :
    (twoOptPass dist bl r).Perm r :=
  foldl_twoOptStep_perm dist bl _ (twoOptPairs_le r.length) r

/-- A full 2-opt pass never lengthens the tour; a pass that changes the route
strictly shortens it. -/
theorem twoOptPass_le (r : List (Address α)) :
    calculateRouteDistance dist (twoOptPass dist bl r) bl
        ≤ calculateRouteDistance dist r bl
      ∧ (twoOptPass dist bl r = r
          ∨ calculateRouteDistance dist (twoOptPass dist bl r) bl
              < calculateRouteDistance dist r bl) :=
  foldl_twoOptStep_le dist bl _ r

end TwoOptFacts

/-- Filtering by a weaker predicate keeps at least as many elements. -/
theorem length_filter_mono {β : Type} (l : List β) (p q : β → Bool)
    (hpq : ∀ x ∈ l, p x = true → q x = true) :
    (l.filter p).length ≤ (l.filter q).length := by
  induction l with
  | nil => simp
  | cons a t ih =>
    have iht := ih fun x hx => hpq x (List.mem_cons_of_mem a hx)
    by_cases hpa : p a = true
    · rw [List.filter_cons_of_pos hpa,
        List.filter_cons_of_pos (hpq a (List.mem_cons_self a t) hpa)]
      simpa using iht
    · rw [List.filter_cons_of_neg (by simpa using hpa)]
      by_cases hqa : q a = true
      · rw [List.filter_cons_of_pos hqa]
        exact le_trans iht (by simp)
      · rw [List.filter_cons_of_neg (by simpa using hqa)]
        exact iht

/-- Filtering by a strictly weaker predicate (witnessed by one element) keeps
strictly more elements. -/
theorem length_filter_lt {β : Type} (l : List β) (p q : β → Bool)
    (hpq : ∀ x ∈ l, p x = true → q x = true) (x : β) (hx : x ∈ l)
    (hqx : q x = true) (hpx : ¬ p x = true) :
    (l.filter p).length < (l.filter q).length := by
  induction l with
  | nil => cases hx
  | cons a t ih =>
    have hmono := length_filter_mono t p q
      fun y hy => hpq y (List.mem_cons_of_mem a hy)
    rcases List.mem_cons.mp hx with rfl | hxt
    · rw [List.filter_cons_of_pos hqx, List.filter_cons_of_neg (by simpa using hpx)]
      simpa using Nat.lt_succ_of_le hmono
    · have iht := ih (fun y hy => hpq y (List.mem_cons_of_mem a hy)) hxt
      by_cases hpa : p a = true
      · rw [List.filter_cons_of_pos hpa,
          List.filter_cons_of_pos (hpq a (List.mem_cons_self a t) hpa)]
        simpa using iht
      · rw [List.filter_cons_of_neg (by simpa using hpa)]
        by_cases hqa : q a = true
        · rw [List.filter_cons_of_pos hqa]
          exact lt_of_lt_of_le iht (by simp)
        · rw [List.filter_cons_of_neg (by simpa using hqa)]
          exact iht

section TwoOptLoop

variable {α : Type} [LinearOrderedField α] [FloorRing α]
variable (dist : LatLng α → LatLng α → α) (bl : LatLng α)

/-- A permuted, strictly shorter route has strictly fewer shorter
permutations. -/
theorem countBetter_lt (r r' : List (Address α)) (hperm : r'.Perm r)
    (hlt : calculateRouteDistance dist r' bl
      < calculateRouteDistance dist r bl) :
    countBetter dist bl r' < countBetter dist bl r := by
  unfold countBetter
  have h1 := ((hperm.permutations).filter
    (fun p => decide (calculateRouteDistance dist p bl
      < calculateRouteDistance dist r' bl))).length_eq
  rw [h1]
  refine length_filter_lt r.permutations _ _ ?_ r' ?_ ?_ ?_
  · intro x _ hxp
    rw [decide_eq_true_eq] at hxp ⊢
    exact lt_trans hxp hlt
  · exact List.mem_permutations.mpr hperm
  · rw [decide_eq_true_eq]
    exact hlt
  · rw [decide_eq_true_eq]
    exact lt_irrefl _

/-- Every budgeted run of the improvement loop permutes the route. -/
theorem twoOptGo_perm : ∀ (fuel : ℕ) (r : List (Address α)),
    (twoOptGo dist bl fuel r).Perm r := by
  intro fuel
  induction fuel with
  | zero => intro r; simp [twoOptGo]
  | succ n ih =>
    intro r
    rw [twoOptGo]
    split
    · exact List.Perm.refl r
    · exact (ih _).trans (twoOptPass_perm dist bl r)

/-- Every budgeted run of the improvement loop never lengthens the tour. -/
theorem twoOptGo_le : ∀ (fuel : ℕ) (r : List (Address α)),
    calculateRouteDistance dist (twoOptGo dist bl fuel r) bl
      ≤ calculateRouteDistance dist r bl := by
  intro fuel
  induction fuel with
  | zero => intro r; simp [twoOptGo]
  | succ n ih =>
    intro r
    rw [twoOptGo]
    split
    · exact le_refl _
    · exact le_trans (ih _) (twoOptPass_le dist bl r).1

/-- With a budget above `countBetter`, the loop reaches a fixed point of the
pass — exactly the `while (improved)` behavior of the source. -/
theorem twoOptGo_fix : ∀ (fuel : ℕ) (r : List (Address α)),
    countBetter dist bl r < fuel →
    twoOptPass dist bl (twoOptGo dist bl fuel r)
      = twoOptGo dist bl fuel r := by
  intro fuel
  induction fuel with
  | zero => intro r h; omega
  | succ n ih =>
    intro r hcount
    rw [twoOptGo]
    split
    · next heq => exact heq
    · next hne =>
      refine ih _ ?_
      have hlt : calculateRouteDistance dist (twoOptPass dist bl r) bl
          < calculateRouteDistance dist r bl := by
        rcases (twoOptPass_le dist bl r).2 with h | h
        · exact absurd h hne
        · exact h
      have := countBetter_lt dist bl r (twoOptPass dist bl r)
        (twoOptPass_perm dist bl r) hlt
      omega

/-- `twoOptOptimization` runs the improvement loop to a genuine fixed point:
one more pass does not change its output. -/
theorem twoOptOptimization_fix (r : List (Address α)) :
    twoOptPass dist bl (twoOptOptimization dist bl r)
      = twoOptOptimization dist bl r :=
  twoOptGo_fix dist bl _ r (Nat.lt_succ_self _)

end TwoOptLoop

/-- Claim C4: 2-opt refinement returns a permutation of its input route whose
closed-tour length is at most the input's; in particular the refined tour is
no longer than the nearest-neighbor tour it starts from, and each accepted
2-opt swap strictly decreases the tour length. -/
theorem claim_C4 {α : Type} [LinearOrderedField α] [FloorRing α]
    (dist : LatLng α → LatLng α → α) (bl : LatLng α)
    (r : List (Address α)) (p : ℕ × ℕ) (addresses : List (Address α)) :
    (twoOptOptimization dist bl r).Perm r
      ∧ calculateRouteDistance dist (twoOptOptimization dist bl r) bl
          ≤ calculateRouteDistance dist r bl
      ∧ (twoOptStep dist bl r p = r
          ∨ calculateRouteDistance dist (twoOptStep dist bl r p) bl
              < calculateRouteDistance dist r bl)
      ∧ calculateRouteDistance dist
            (twoOptOptimization dist bl (nearestNeighborRoute dist addresses bl)) bl
          ≤ calculateRouteDistance dist (nearestNeighborRoute dist addresses bl)
            bl := by
  refine ⟨twoOptGo_perm dist bl _ r, twoOptGo_le dist bl _ r, ?_,
    twoOptGo_le dist bl _ _⟩
  rcases twoOptStep_cases dist bl r p with h | ⟨-, hlt⟩
  · exact Or.inl h
  · exact Or.inr hlt

/-- A permutation of the outer lists induces a permutation of their
concatenations. -/
theorem perm_flatten_of_perm {β : Type} {L1 L2 : List (List β)}
    (h : L1.Perm L2) : L1.flatten.Perm L2.flatten := by
  induction h with
  | nil => exact List.Perm.refl _
  | cons x _ ih => exact ih.append_left x
  | swap x y l =>
    simp only [List.flatten_cons]
    rw [← List.append_assoc, ← List.append_assoc]
    exact List.Perm.append_right _ List.perm_append_comm
  | trans _ _ ih1 ih2 => exact ih1.trans ih2

section ClusterOrigin

variable {α : Type} [LinearOrderedField α] [FloorRing α]
variable (dist : LatLng α → LatLng α → α) (s : BikeWalkSettings α)

/-- Adding one map entry: the later `set` wins on its own id. -/
theorem lookupAddr_append (l : List (Address α)) (b : Address α) (i : String) :
    lookupAddr (l ++ [b]) i = if b.id = i then some b else lookupAddr l i := by
  unfold lookupAddr
  rw [List.foldl_append]
  rfl

/-- A successful map lookup returns an element of the list. -/
theorem lookupAddr_mem (l : List (Address α)) (i : String) (a : Address α)
    (h : lookupAddr l i = some a) : a ∈ l := by
  induction l using List.reverseRecOn with
  | nil => simp [lookupAddr] at h
  | append_singleton t b ih =>
    rw [lookupAddr_append] at h
    split at h
    · rw [Option.some_inj] at h
      subst h
      exact List.mem_append_right t (List.mem_cons_self b [])
    · exact List.mem_append_left _ (ih h)

/-- Every listed address is found under its own id. -/
theorem lookupAddr_isSome_of_mem (l : List (Address α)) (a : Address α)
    (ha : a ∈ l) : (lookupAddr l a.id).isSome := by
  induction l using List.reverseRecOn with
  | nil => cases ha
  | append_singleton t b ih =>
    rw [lookupAddr_append]
    split
    · rfl
    · next hne =>
      rcases List.mem_append.mp ha with h | h
      · exact ih h
      · rw [List.mem_singleton] at h
        subst h
        exact absurd rfl hne

/-- With unique ids, lookup by an element's id returns that element. -/
theorem lookupAddr_nodup (l : List (Address α)) (a : Address α)
    (hN : (l.map fun x => x.id).Nodup) (ha : a ∈ l) :
    lookupAddr l a.id = some a := by
  induction l using List.reverseRecOn with
  | nil => cases ha
  | append_singleton t b ih =>
    rw [List.map_append, List.nodup_append] at hN
    obtain ⟨hN1, -, hdisj⟩ := hN
    rw [lookupAddr_append]
    rcases List.mem_append.mp ha with h | h
    · have haid : a.id ∈ t.map fun x => x.id := List.mem_map_of_mem _ h
      have hne : ¬ b.id = a.id := by
        intro hEq
        exact hdisj haid (by simp [hEq])
      rw [if_neg hne]
      exact ih hN1 h
    · rw [List.mem_singleton] at h
      subst h
      rw [if_pos rfl]

/-- Reconstituted members come from the address list. -/
theorem membersOf_sub (addresses : List (Address α)) (c : Cluster α) :
    ∀ x ∈ membersOf addresses c, x ∈ addresses := by
  intro x hx
  rw [membersOf, List.mem_filterMap] at hx
  obtain ⟨i, -, hl⟩ := hx
  exact lookupAddr_mem addresses i x hl

/-- A cluster whose (non-empty) member ids all resolve reconstitutes to a
non-empty member list. -/
theorem membersOf_ne_nil (addresses : List (Address α)) (c : Cluster α)
    (ms : List (Address α)) (hne : ms ≠ [])
    (hsub : ∀ a ∈ ms, a ∈ addresses)
    (haddr : c.addresses = ms.map fun a => a.id) :
    membersOf addresses c ≠ [] := by
  match ms, hne with
  | m :: t, _ =>
    have hs := lookupAddr_isSome_of_mem addresses m
      (hsub m (List.mem_cons_self m t))
    rw [Option.isSome_iff_exists] at hs
    obtain ⟨b, hb⟩ := hs
    rw [membersOf, haddr]
    simp [List.filterMap_cons, hb]

/-- With unique ids, reconstitution returns exactly the original member
list. -/
theorem membersOf_exact (addresses : List (Address α)) (c : Cluster α)
    (ms : List (Address α))
    (hN : (addresses.map fun a => a.id).Nodup)
    (hsub : ∀ a ∈ ms, a ∈ addresses)
    (haddr : c.addresses = ms.map fun a => a.id) :
    membersOf addresses c = ms := by
  rw [membersOf, haddr, List.filterMap_map]
  clear haddr
  induction ms with
  | nil => rfl
  | cons m t ih =>
    rw [List.filterMap_cons]
    have hm : lookupAddr addresses m.id = some m :=
      lookupAddr_nodup addresses m hN (hsub m (List.mem_cons_self m t))
    simp only [Function.comp_apply, hm]
    rw [ih fun a ha => hsub a (List.mem_cons_of_mem m ha)]

/-- The grow loop's cluster and leftover together permute seed plus
unassigned. -/
theorem growCluster_append_perm :
    ∀ (l cl : List (Address α)),
      ((growCluster dist s cl l).1 ++ (growCluster dist s cl l).2).Perm
        (cl ++ l) := by
  intro l
  induction l with
  | nil => intro cl; simp [growCluster]
  | cons a t ih =>
    intro cl
    rw [growCluster]
    by_cases h1 : (cl.length : α) < s.preferredClusterSize
    · rw [if_pos h1]
      by_cases h2 : withinRange dist s cl a
      · rw [if_pos h2]
        refine (ih (cl ++ [a])).trans ?_
        rw [List.append_assoc]
        exact List.Perm.refl _
      · rw [if_neg h2]
        refine List.Perm.trans List.perm_middle ?_
        refine List.Perm.trans ((ih cl).cons a) ?_
        exact List.perm_middle.symm
    · rw [if_neg h1]

/-- The grow loop extends its seed cluster on the right. -/
theorem growCluster_fst_prefix :
    ∀ (l cl : List (Address α)),
      ∃ suf, (growCluster dist s cl l).1 = cl ++ suf := by
  intro l
  induction l with
  | nil => intro cl; exact ⟨[], by simp [growCluster]⟩
  | cons a t ih =>
    intro cl
    rw [growCluster]
    by_cases h1 : (cl.length : α) < s.preferredClusterSize
    · rw [if_pos h1]
      by_cases h2 : withinRange dist s cl a
      · rw [if_pos h2]
        obtain ⟨suf, hsuf⟩ := ih (cl ++ [a])
        exact ⟨a :: suf, by rw [hsuf, List.append_assoc]; rfl⟩
      · rw [if_neg h2]
        exact ih cl
    · rw [if_neg h1]
      exact ⟨[], by simp⟩

/-- The grow loop leaves no more unassigned addresses than it scanned. -/
theorem growCluster_snd_length_le :
    ∀ (l cl : List (Address α)),
      ((growCluster dist s cl l).2).length ≤ l.length := by
  intro l
  induction l with
  | nil => intro cl; simp [growCluster]
  | cons a t ih =>
    intro cl
    rw [growCluster]
    by_cases h1 : (cl.length : α) < s.preferredClusterSize
    · rw [if_pos h1]
      by_cases h2 : withinRange dist s cl a
      · rw [if_pos h2]
        exact le_trans (ih (cl ++ [a])) (Nat.le_succ _)
      · rw [if_neg h2]
        simpa using ih cl
    · rw [if_neg h1]

/-- Every cluster emitted by seed-and-grow is built by `createCluster` from a
non-empty sublist of the input addresses. -/
theorem seedAndGrow_isClusterOf (addresses : List (Address α)) :
    ∀ (k n : ℕ) (l : List (Address α)), l.length ≤ k →
      (∀ a ∈ l, a ∈ addresses) →
      ∀ c ∈ seedAndGrow dist s k n l, IsClusterOf dist addresses c := by
  intro k
  induction k with
  | zero =>
    intro n l hl _ c hc
    have hnil : l = [] := List.length_eq_zero.mp (Nat.le_zero.mp hl)
    subst hnil
    simp [seedAndGrow] at hc
  | succ k ih =>
    intro n l hl hsub c hc
    match l, hl, hsub, hc with
    | [], _, _, hc => simp [seedAndGrow] at hc
    | seed :: rest, hl, hsub, hc =>
      simp only [seedAndGrow, List.mem_cons] at hc
      have hperm := growCluster_append_perm dist s rest [seed]
      rcases hc with rfl | htail
      · obtain ⟨suf, hsuf⟩ := growCluster_fst_prefix dist s rest [seed]
        refine ⟨(growCluster dist s [seed] rest).1, ?_, ?_, rfl, rfl⟩
        · rw [hsuf]
          exact List.cons_ne_nil seed suf
        · intro x hx
          have hx2 : x ∈ [seed] ++ rest :=
            hperm.mem_iff.mp (List.mem_append_left _ hx)
          exact hsub x (by simpa using hx2)
      · refine ih (n + 1) (growCluster dist s [seed] rest).2 ?_ ?_ c htail
        · have := growCluster_snd_length_le dist s rest [seed]
          simp only [List.length_cons] at hl
          omega
        · intro x hx
          have hx2 : x ∈ [seed] ++ rest :=
            hperm.mem_iff.mp (List.mem_append_right _ hx)
          exact hsub x (by simpa using hx2)

/-- The member-id lists of the seed-and-grow clusters are a permutation of
the input ids. -/
theorem seedAndGrow_flatten :
    ∀ (k n : ℕ) (l : List (Address α)), l.length ≤ k →
      (((seedAndGrow dist s k n l).map fun c => c.addresses).flatten).Perm
        (l.map fun a => a.id) := by
  intro k
  induction k with
  | zero =>
    intro n l hl
    have hnil : l = [] := List.length_eq_zero.mp (Nat.le_zero.mp hl)
    subst hnil
    simp [seedAndGrow]
  | succ k ih =>
    intro n l hl
    match l, hl with
    | [], _ => simp [seedAndGrow]
    | seed :: rest, hl =>
      simp only [seedAndGrow, List.map_cons, List.flatten_cons]
      have hlen := growCluster_snd_length_le dist s rest [seed]
      simp only [List.length_cons] at hl
      have ihl := ih (n + 1) (growCluster dist s [seed] rest).2 (by omega)
      have step1 : (createCluster dist s
            (String.append "cluster-" (toString n))
            (growCluster dist s [seed] rest).1).addresses
          = (growCluster dist s [seed] rest).1.map fun a => a.id := rfl
      rw [step1]
      refine (List.Perm.append_left _ ihl).trans ?_
      rw [← List.map_append]
      have hperm := growCluster_append_perm dist s rest [seed]
      refine (hperm.map fun a => a.id).trans ?_
      simp

/-- Replacing slot `i` exchanges old for new content in the concatenated
member-id lists, up to permutation. -/
theorem flatten_set_exchange (L : List (Cluster α)) :
    ∀ (i : ℕ) (y b : Cluster α), L.get? i = some b →
      (((L.set i y).map fun c => c.addresses).flatten ++ b.addresses).Perm
        ((L.map fun c => c.addresses).flatten ++ y.addresses) := by
  induction L with
  | nil => intro i y b h; simp at h
  | cons hd t ih =>
    intro i y b h
    cases i with
    | zero =>
      rw [List.get?] at h
      rw [Option.some_inj] at h
      subst h
      simp only [List.set, List.map_cons, List.flatten_cons]
      have hstep : ∀ A F B : List String,
          ((A ++ F) ++ B).Perm ((B ++ F) ++ A) := by
        intro A F B
        refine List.Perm.trans List.perm_append_comm ?_
        rw [List.append_assoc]
        exact List.Perm.append_left _ List.perm_append_comm
      exact hstep _ _ _
    | succ i =>
      rw [List.get?] at h
      simp only [List.set, List.map_cons, List.flatten_cons]
      rw [List.append_assoc, List.append_assoc]
      exact List.Perm.append_left _ (ih i y b h)

section Redistribution

variable {α : Type} [LinearOrderedField α] [FloorRing α]
variable (dist : LatLng α → LatLng α → α) (s : BikeWalkSettings α)
variable (addresses : List (Address α))

/-- One redistribution step preserves the canonical cluster shape. -/
theorem processSmall_isClusterOf (opt : List (Cluster α))
    (small : Cluster α)
    (hopt : ∀ c ∈ opt, IsClusterOf dist addresses c)
    (hsm : IsClusterOf dist addresses small) :
    ∀ c ∈ processSmall dist s addresses opt small,
      IsClusterOf dist addresses c := by
  intro c hc
  simp only [processSmall] at hc
  split at hc
  · split at hc
    · rcases List.mem_or_eq_of_mem_set hc with h | h
      · exact hopt c h
      · subst h
        obtain ⟨msS, hSne, hSsub, hSaddr, -⟩ := hsm
        refine ⟨membersOf addresses _ ++ membersOf addresses small,
          ?_, ?_, rfl, rfl⟩
        · intro hemp
          rcases List.append_eq_nil.mp hemp with ⟨-, h2⟩
          exact membersOf_ne_nil addresses small msS hSne hSsub hSaddr h2
        · intro x hx
          rcases List.mem_append.mp hx with h | h
          · exact membersOf_sub addresses _ x h
          · exact membersOf_sub addresses small x h
    · rcases List.mem_append.mp hc with h | h
      · exact hopt c h
      · rw [List.mem_singleton] at h
        subst h
        exact hsm
  · rcases List.mem_append.mp hc with h | h
    · exact hopt c h
    · rw [List.mem_singleton] at h
      subst h
      exact hsm

/-- One redistribution step adds exactly the small cluster's member ids to
the pool, up to permutation. -/
theorem processSmall_flatten
    (hN : (addresses.map fun a => a.id).Nodup)
    (opt : List (Cluster α)) (small : Cluster α)
    (hopt : ∀ c ∈ opt, IsClusterOf dist addresses c)
    (hsm : IsClusterOf dist addresses small) :
    (((processSmall dist s addresses opt small).map
        fun c => c.addresses).flatten).Perm
      ((opt.map fun c => c.addresses).flatten ++ small.addresses) := by
  simp only [processSmall]
  split
  · next idx heqf =>
    split
    · next best hget =>
      have hbm : best ∈ opt := List.get?_mem hget
      obtain ⟨msB, hBne, hBsub, hBaddr, -⟩ := hopt best hbm
      obtain ⟨msS, hSne, hSsub, hSaddr, -⟩ := hsm
      have hmB : membersOf addresses best = msB :=
        membersOf_exact addresses best msB hN hBsub hBaddr
      have hmS : membersOf addresses small = msS :=
        membersOf_exact addresses small msS hN hSsub hSaddr
      have haddr : (createCluster dist s best.id
            (membersOf addresses best ++ membersOf addresses small)).addresses
          = best.addresses ++ small.addresses := by
        show (membersOf addresses best ++ membersOf addresses small).map
            (fun a => a.id) = _
        rw [hmB, hmS, List.map_append, ← hBaddr, ← hSaddr]
      have hex := flatten_set_exchange opt idx
        (createCluster dist s best.id
          (membersOf addresses best ++ membersOf addresses small)) best hget
      rw [haddr] at hex
      have h2 : ((opt.map fun c => c.addresses).flatten
            ++ (best.addresses ++ small.addresses)).Perm
          (((opt.map fun c => c.addresses).flatten ++ small.addresses)
            ++ best.addresses) := by
        rw [List.append_assoc]
        exact List.Perm.append_left _ List.perm_append_comm
      exact (List.perm_append_right_iff _).mp (hex.trans h2)
    · simp [List.map_append, List.flatten_append]
  · simp [List.map_append, List.flatten_append]

/-- Folding the redistribution step over the small clusters preserves the
canonical shapes and accumulates exactly their member ids. -/
theorem foldl_processSmall_facts
    (hN : (addresses.map fun a => a.id).Nodup) :
    ∀ (smalls opt : List (Cluster α)),
      (∀ c ∈ opt, IsClusterOf dist addresses c) →
      (∀ c ∈ smalls, IsClusterOf dist addresses c) →
      (∀ c ∈ smalls.foldl (processSmall dist s addresses) opt,
          IsClusterOf dist addresses c)
        ∧ (((smalls.foldl (processSmall dist s addresses) opt).map
              fun c => c.addresses).flatten).Perm
            ((opt.map fun c => c.addresses).flatten
              ++ ((smalls.map fun c => c.addresses).flatten)) := by
  intro smalls
  induction smalls with
  | nil =>
    intro opt hopt _
    refine ⟨hopt, by simp⟩
  | cons sc t ih =>
    intro opt hopt hsmalls
    have hsc := hsmalls sc (List.mem_cons_self sc t)
    have hstep := processSmall_isClusterOf dist s addresses opt sc hopt hsc
    have hstepfl := processSmall_flatten dist s addresses hN opt sc hopt hsc
    obtain ⟨hinv, hfl⟩ := ih (processSmall dist s addresses opt sc) hstep
      (fun c hc => hsmalls c (List.mem_cons_of_mem sc hc))
    rw [List.foldl_cons]
    refine ⟨hinv, ?_⟩
    refine hfl.trans ?_
    refine (List.Perm.append_right _ hstepfl).trans ?_
    rw [List.map_cons, List.flatten_cons, List.append_assoc]

/-- The redistribution pass preserves the canonical cluster shapes and the
concatenated member ids, up to permutation. -/
theorem redistribute_facts
    (hN : (addresses.map fun a => a.id).Nodup)
    (clusters : List (Cluster α))
    (hinv : ∀ c ∈ clusters, IsClusterOf dist addresses c) :
    (∀ c ∈ redistributeSmallClusters dist s clusters addresses,
        IsClusterOf dist addresses c)
      ∧ (((redistributeSmallClusters dist s clusters addresses).map
            fun c => c.addresses).flatten).Perm
          ((clusters.map fun c => c.addresses).flatten) := by
  simp only [redistributeSmallClusters, List.partition_eq_filter_filter]
  set p := fun c : Cluster α =>
    decide ((c.addresses.length : ℤ)
      < max 2 ⌊s.preferredClusterSize * (2 / 5 : α)⌋) with hp
  obtain ⟨hinv2, hfl⟩ := foldl_processSmall_facts dist s addresses hN
    (clusters.filter p) (clusters.filter (not ∘ p))
    (fun c hc => hinv c (List.mem_of_mem_filter hc))
    (fun c hc => hinv c (List.mem_of_mem_filter hc))
  refine ⟨hinv2, hfl.trans ?_⟩
  rw [← List.flatten_append, ← List.map_append]
  refine perm_flatten_of_perm ?_
  refine List.Perm.map _ ?_
  have hfp : (clusters.filter fun x => !p x) = clusters.filter (not ∘ p) :=
    rfl
  refine List.Perm.trans List.perm_append_comm ?_
  rw [← hfp]
  exact List.filter_append_perm p clusters

end Redistribution

/-- Every cluster produced by `createClusters` is built from a non-empty
member list drawn from the input, and the concatenated member ids of the
output permute the input ids. -/
theorem createClusters_facts {α : Type} [LinearOrderedField α] [FloorRing α]
    (dist : LatLng α → LatLng α → α) (s : BikeWalkSettings α)
    (addresses : List (Address α))
    (hN : (addresses.map fun a => a.id).Nodup) :
    (∀ c ∈ createClusters dist s addresses, IsClusterOf dist addresses c)
      ∧ (((createClusters dist s addresses).map
            fun c => c.addresses).flatten).Perm (addresses.map fun a => a.id)
    := by
  have hsg := seedAndGrow_isClusterOf dist s addresses addresses.length 0
    addresses (le_refl _) (fun a ha => ha)
  have hsgf := seedAndGrow_flatten dist s addresses.length 0 addresses
    (le_refl _)
  obtain ⟨hinv, hfl⟩ := redistribute_facts dist s addresses hN
    (seedAndGrow dist s addresses.length 0 addresses) hsg
  exact ⟨hinv, hfl.trans hsgf⟩

/-- The running-minimum fold keeps a pair (value, witness) with the witness
drawn from the scanned elements (or the start), the value being its image,
and the value minimal among everything scanned. -/
theorem foldl_argmin {α : Type} [LinearOrderedField α] {β : Type}
    (f : β → α) :
    ∀ (l : List β) (init : β),
      ((l.foldl (fun p c => if f c < p.1 then (f c, c) else p)
          (f init, init)).2 = init
        ∨ (l.foldl (fun p c => if f c < p.1 then (f c, c) else p)
            (f init, init)).2 ∈ l)
      ∧ (l.foldl (fun p c => if f c < p.1 then (f c, c) else p)
          (f init, init)).1
        = f (l.foldl (fun p c => if f c < p.1 then (f c, c) else p)
            (f init, init)).2
      ∧ (l.foldl (fun p c => if f c < p.1 then (f c, c) else p)
          (f init, init)).1 ≤ f init
      ∧ ∀ c ∈ l,
        (l.foldl (fun p c => if f c < p.1 then (f c, c) else p)
          (f init, init)).1 ≤ f c := by
  intro l
  induction l with
  | nil =>
    intro init
    refine ⟨Or.inl rfl, rfl, le_refl _, ?_⟩
    intro c hc
    cases hc
  | cons c t ih =>
    intro init
    rw [List.foldl_cons]
    by_cases h : f c < f init
    · rw [if_pos h]
      obtain ⟨hmem, hval, hle, hall⟩ := ih c
      refine ⟨?_, hval, le_of_lt (lt_of_le_of_lt hle h), ?_⟩
      · rcases hmem with h2 | h2
        · exact Or.inr (by rw [h2]; exact List.mem_cons_self c t)
        · exact Or.inr (List.mem_cons_of_mem c h2)
      · intro c2 hc2
        rcases List.mem_cons.mp hc2 with rfl | h2
        · exact hle
        · exact hall c2 h2
    · rw [if_neg h]
      obtain ⟨hmem, hval, hle, hall⟩ := ih init
      refine ⟨?_, hval, hle, ?_⟩
      · rcases hmem with h2 | h2
        · exact Or.inl h2
        · exact Or.inr (List.mem_cons_of_mem c h2)
      · intro c2 hc2
        rcases List.mem_cons.mp hc2 with rfl | h2
        · exact le_trans hle (not_lt.mp h)
        · exact hall c2 h2

/-- On a non-empty member list with resolved coordinates, the anchor
computation returns the coordinate of a member at minimal distance from the
geometric center of the members' coordinates. -/
theorem calcOpt_argmin {α : Type} [LinearOrderedField α]
    (dist : LatLng α → LatLng α → α) (ms : List (Address α))
    (hne : ms ≠ []) (hc : ∀ a ∈ ms, a.coordinates.isSome) :
    ∃ mc, (∃ m ∈ ms, m.coordinates = some mc)
      ∧ calculateOptimalBikeLocation dist ms = latLngOfCoord mc
      ∧ ∀ m2 ∈ ms, ∀ mc2, m2.coordinates = some mc2 →
          dist (geometricCenter (ms.filterMap fun a => a.coordinates))
              (latLngOfCoord mc)
            ≤ dist (geometricCenter (ms.filterMap fun a => a.coordinates))
              (latLngOfCoord mc2) := by
  have hmem : ∀ mc2, mc2 ∈ (ms.filterMap fun a => a.coordinates) ↔
      ∃ m ∈ ms, m.coordinates = some mc2 := by
    intro mc2
    exact List.mem_filterMap
  cases hv : ms.filterMap fun a => a.coordinates with
  | nil =>
    exfalso
    obtain ⟨m, t, rfl⟩ : ∃ m t, ms = m :: t := by
      cases ms with
      | nil => exact absurd rfl hne
      | cons m t => exact ⟨m, t, rfl⟩
    rw [List.filterMap_eq_nil_iff] at hv
    have h2 := hc m (List.mem_cons_self m t)
    rw [hv m (List.mem_cons_self m t)] at h2
    cases h2
  | cons c rest =>
    cases rest with
    | nil =>
      refine ⟨c, ?_, ?_, ?_⟩
      · exact (hmem c).mp (by rw [hv]; exact List.mem_cons_self c [])
      · simp only [calculateOptimalBikeLocation, hv]
      · intro m2 hm2 mc2 hmc2
        have : mc2 ∈ (ms.filterMap fun a => a.coordinates) :=
          (hmem mc2).mpr ⟨m2, hm2, hmc2⟩
        rw [hv, List.mem_singleton] at this
        subst this
        exact le_refl _
    | cons c2 t =>
      obtain ⟨hfmem, hfval, hfle, hfall⟩ := foldl_argmin
        (fun cc => dist (geometricCenter (c :: c2 :: t)) (latLngOfCoord cc))
        (c2 :: t) c
      refine ⟨((c2 :: t).foldl (fun p cc =>
          if dist (geometricCenter (c :: c2 :: t)) (latLngOfCoord cc) < p.1
          then (dist (geometricCenter (c :: c2 :: t)) (latLngOfCoord cc), cc)
          else p)
          (dist (geometricCenter (c :: c2 :: t)) (latLngOfCoord c), c)).2,
        ?_, ?_, ?_⟩
      · refine (hmem _).mp ?_
        rw [hv]
        rcases hfmem with h2 | h2
        · rw [h2]
          exact List.mem_cons_self c (c2 :: t)
        · exact List.mem_cons_of_mem c h2
      · simp only [calculateOptimalBikeLocation, hv]
      · intro m2 hm2 mc2 hmc2
        have hin : mc2 ∈ (ms.filterMap fun a => a.coordinates) :=
          (hmem mc2).mpr ⟨m2, hm2, hmc2⟩
        rw [hv] at hin
        rw [← hfval]
        rcases List.mem_cons.mp hin with rfl | h2
        · exact hfle
        · exact hfall mc2 h2

/-- Claim C2: every cluster produced by construction plus redistribution is
built from a non-empty member list drawn from the input stops (its id list is
exactly the member ids), and its anchor equals the coordinate of one of those
members, namely a member at minimal distance from the geometric center of the
members' coordinates. -/
theorem claim_C2 {α : Type} [LinearOrderedField α] [FloorRing α]
    (dist : LatLng α → LatLng α → α) (s : BikeWalkSettings α)
    (addresses : List (Address α))
    (hN : (addresses.map fun a => a.id).Nodup)
    (hC : ∀ a ∈ addresses, a.coordinates.isSome) :
    ∀ c ∈ createClusters dist s addresses, ∃ ms : List (Address α), ms ≠ []
      ∧ (∀ a ∈ ms, a ∈ addresses)
      ∧ c.addresses = ms.map (fun a => a.id)
      ∧ ∃ mc, (∃ m ∈ ms, m.coordinates = some mc)
        ∧ c.bikeLocation = latLngOfCoord mc
        ∧ ∀ m2 ∈ ms, ∀ mc2, m2.coordinates = some mc2 →
            dist (geometricCenter (ms.filterMap fun a => a.coordinates))
                (latLngOfCoord mc)
              ≤ dist (geometricCenter (ms.filterMap fun a => a.coordinates))
                (latLngOfCoord mc2) := by
  intro c hc
  obtain ⟨hinv, -⟩ := createClusters_facts dist s addresses hN
  obtain ⟨ms, hne, hsub, haddr, hbike⟩ := hinv c hc
  obtain ⟨mc, hmc, hanchor, hmin⟩ := calcOpt_argmin dist ms hne
    fun a ha => hC a (hsub a ha)
  exact ⟨ms, hne, hsub, haddr, mc, hmc, hbike.trans hanchor, hmin⟩

/-- Witness for C2 on two resolved stops with unique ids. -/
theorem claim_C2_witness :
    (([⟨"a", some ((4 : ℚ), 52)⟩,
        ⟨"b", some (5, 53)⟩] : List (Address ℚ)).map fun a => a.id).Nodup
      ∧ (∀ a ∈ ([⟨"a", some ((4 : ℚ), 52)⟩,
          ⟨"b", some (5, 53)⟩] : List (Address ℚ)), a.coordinates.isSome)
      ∧ ∀ c ∈ createClusters
          (fun p q : LatLng ℚ => |p.lat - q.lat| + |p.lng - q.lng|)
          ⟨400, 5, 18, 30, 8, none⟩
          [⟨"a", some (4, 52)⟩, ⟨"b", some (5, 53)⟩],
        ∃ ms : List (Address ℚ), ms ≠ []
          ∧ (∀ a ∈ ms, a ∈ ([⟨"a", some ((4 : ℚ), 52)⟩,
              ⟨"b", some (5, 53)⟩] : List (Address ℚ)))
          ∧ c.addresses = ms.map (fun a => a.id)
          ∧ ∃ mc, (∃ m ∈ ms, m.coordinates = some mc)
            ∧ c.bikeLocation = latLngOfCoord mc
            ∧ ∀ m2 ∈ ms, ∀ mc2, m2.coordinates = some mc2 →
                (fun p q : LatLng ℚ => |p.lat - q.lat| + |p.lng - q.lng|)
                    (geometricCenter (ms.filterMap fun a => a.coordinates))
                    (latLngOfCoord mc)
                  ≤ (fun p q : LatLng ℚ => |p.lat - q.lat| + |p.lng - q.lng|)
                    (geometricCenter (ms.filterMap fun a => a.coordinates))
                    (latLngOfCoord mc2) :=
  ⟨by decide, by decide,
    claim_C2 (fun p q : LatLng ℚ => |p.lat - q.lat| + |p.lng - q.lng|)
      ⟨400, 5, 18, 30, 8, none⟩
      [⟨"a", some (4, 52)⟩, ⟨"b", some (5, 53)⟩] (by decide) (by decide)⟩

/-- Claim C3: for unique stop ids, the clusters returned by construction plus
redistribution partition the input — the concatenated member ids are a
permutation of the input ids, with no duplicate and no omission. -/
theorem claim_C3 {α : Type} [LinearOrderedField α] [FloorRing α]
    (dist : LatLng α → LatLng α → α) (s : BikeWalkSettings α)
    (addresses : List (Address α))
    (hN : (addresses.map fun a => a.id).Nodup) :
    (((createClusters dist s addresses).map
        fun c => c.addresses).flatten).Perm (addresses.map fun a => a.id)
      ∧ (((createClusters dist s addresses).map
          fun c => c.addresses).flatten).Nodup := by
  obtain ⟨-, hfl⟩ := createClusters_facts dist s addresses hN
  exact ⟨hfl, hfl.symm.nodup hN⟩

/-- Witness for C3 on three stops, two of which cluster together. -/
theorem claim_C3_witness :
    (([⟨"a", some ((0 : ℚ), 0)⟩, ⟨"b", some (1, 0)⟩,
        ⟨"c", some (900, 0)⟩] : List (Address ℚ)).map fun a => a.id).Nodup
      ∧ (((createClusters
          (fun p q : LatLng ℚ => |p.lat - q.lat| + |p.lng - q.lng|)
          ⟨400, 5, 18, 30, 8, none⟩
          [⟨"a", some (0, 0)⟩, ⟨"b", some (1, 0)⟩,
            ⟨"c", some (900, 0)⟩]).map fun c => c.addresses).flatten).Perm
        (([⟨"a", some ((0 : ℚ), 0)⟩, ⟨"b", some (1, 0)⟩,
          ⟨"c", some (900, 0)⟩] : List (Address ℚ)).map fun a => a.id)
      ∧ (((createClusters
          (fun p q : LatLng ℚ => |p.lat - q.lat| + |p.lng - q.lng|)
          ⟨400, 5, 18, 30, 8, none⟩
          [⟨"a", some (0, 0)⟩, ⟨"b", some (1, 0)⟩,
            ⟨"c", some (900, 0)⟩]).map fun c => c.addresses).flatten).Nodup :=
  ⟨by decide,
    (claim_C3 (fun p q : LatLng ℚ => |p.lat - q.lat| + |p.lng - q.lng|)
      ⟨400, 5, 18, 30, 8, none⟩
      [⟨"a", some (0, 0)⟩, ⟨"b", some (1, 0)⟩, ⟨"c", some (900, 0)⟩]
      (by decide)).1,
    (claim_C3 (fun p q : LatLng ℚ => |p.lat - q.lat| + |p.lng - q.lng|)
      ⟨400, 5, 18, 30, 8, none⟩
      [⟨"a", some (0, 0)⟩, ⟨"b", some (1, 0)⟩, ⟨"c", some (900, 0)⟩]
      (by decide)).2⟩

/-- Claim C5, counterexample: with an invalid configuration
(`preferredClusterSize = 0`, negative walking speed) route construction does
not reject and does not stop before computing — it runs to completion and
returns a complete `BikeWalkRoute` that carries the invalid settings and
whose non-empty cluster list covers both input stops. -/
theorem claim_C5_counterexample :
    (((createBikeWalkRoute (fun _ _ => (0 : ℚ))
        ⟨400, -5, 18, 30, 0, none⟩ "t"
        [⟨"a", some (4, 52)⟩,
          ⟨"b", some (5, 53)⟩]).clusters.map
        fun c => c.addresses).flatten).Perm ["a", "b"]
      ∧ (createBikeWalkRoute (fun _ _ => (0 : ℚ))
          ⟨400, -5, 18, 30, 0, none⟩ "t"
          [⟨"a", some (4, 52)⟩, ⟨"b", some (5, 53)⟩]).clusters ≠ []
      ∧ (createBikeWalkRoute (fun _ _ => (0 : ℚ))
          ⟨400, -5, 18, 30, 0, none⟩ "t"
          [⟨"a", some (4, 52)⟩, ⟨"b", some (5, 53)⟩]).settings
        = ⟨400, -5, 18, 30, 0, none⟩ := by
  have hfl := (createClusters_facts (fun _ _ => (0 : ℚ))
    ⟨400, -5, 18, 30, 0, none⟩
    [⟨"a", some (4, 52)⟩, ⟨"b", some (5, 53)⟩] (by decide)).2
  have hids : ([⟨"a", some ((4 : ℚ), 52)⟩,
      ⟨"b", some (5, 53)⟩] : List (Address ℚ)).map (fun a => a.id)
      = ["a", "b"] := rfl
  rw [hids] at hfl
  refine ⟨hfl, ?_, rfl⟩
  intro hnil
  have h2 := hfl
  rw [show (createBikeWalkRoute (fun _ _ => (0 : ℚ))
      ⟨400, -5, 18, 30, 0, none⟩ "t"
      [⟨"a", some (4, 52)⟩, ⟨"b", some (5, 53)⟩]).clusters
      = createClusters (fun _ _ => (0 : ℚ)) ⟨400, -5, 18, 30, 0, none⟩
        [⟨"a", some (4, 52)⟩, ⟨"b", some (5, 53)⟩] from rfl] at hnil
  rw [hnil] at h2
  simp at h2

/-- Claim C5 as amended: route construction performs no configuration
validation; even with an invalid configuration it returns a complete
`BikeWalkRoute` carrying the settings unchanged, whose clusters still
partition the input stops. -/
theorem claim_C5_amended {α : Type} [LinearOrderedField α] [FloorRing α]
    (dist : LatLng α → LatLng α → α) (s : BikeWalkSettings α) (now : String)
    (addresses : List (Address α))
    (hinvalid : s.preferredClusterSize < 1)
    (hN : (addresses.map fun a => a.id).Nodup) :
    (createBikeWalkRoute dist s now addresses).settings = s
      ∧ (createBikeWalkRoute dist s now addresses).clusters
          = createClusters dist s addresses
      ∧ ((((createBikeWalkRoute dist s now addresses).clusters.map
          fun c => c.addresses).flatten).Perm
          (addresses.map fun a => a.id)) := by
  refine ⟨rfl, rfl, ?_⟩
  exact (createClusters_facts dist s addresses hN).2

/-- Witness for C5 at the invalid configuration of the counterexample. -/
theorem claim_C5_witness :
    ((⟨400, -5, 18, 30, 0, none⟩ : BikeWalkSettings ℚ).preferredClusterSize
        < 1)
      ∧ (([⟨"a", some ((4 : ℚ), 52)⟩,
          ⟨"b", some (5, 53)⟩] : List (Address ℚ)).map fun a => a.id).Nodup
      ∧ ((createBikeWalkRoute
            (fun p q : LatLng ℚ => |p.lat - q.lat| + |p.lng - q.lng|)
            ⟨400, -5, 18, 30, 0, none⟩ "t"
            [⟨"a", some (4, 52)⟩, ⟨"b", some (5, 53)⟩]).settings
          = ⟨400, -5, 18, 30, 0, none⟩
        ∧ (createBikeWalkRoute
            (fun p q : LatLng ℚ => |p.lat - q.lat| + |p.lng - q.lng|)
            ⟨400, -5, 18, 30, 0, none⟩ "t"
            [⟨"a", some (4, 52)⟩, ⟨"b", some (5, 53)⟩]).clusters
          = createClusters
            (fun p q : LatLng ℚ => |p.lat - q.lat| + |p.lng - q.lng|)
            ⟨400, -5, 18, 30, 0, none⟩
            [⟨"a", some (4, 52)⟩, ⟨"b", some (5, 53)⟩]
        ∧ ((((createBikeWalkRoute
              (fun p q : LatLng ℚ => |p.lat - q.lat| + |p.lng - q.lng|)
              ⟨400, -5, 18, 30, 0, none⟩ "t"
              [⟨"a", some (4, 52)⟩, ⟨"b", some (5, 53)⟩]).clusters.map
            fun c => c.addresses).flatten).Perm
            (([⟨"a", some ((4 : ℚ), 52)⟩,
              ⟨"b", some (5, 53)⟩] : List (Address ℚ)).map
              fun a => a.id))) :=
  ⟨by decide, by decide,
    claim_C5_amended
      (fun p q : LatLng ℚ => |p.lat - q.lat| + |p.lng - q.lng|)
      ⟨400, -5, 18, 30, 0, none⟩ "t"
      [⟨"a", some (4, 52)⟩, ⟨"b", some (5, 53)⟩]
      (by decide) (by decide)⟩

/-- `Math.atan2` recovers an angle in the first quadrant from its sine and
cosine. -/
theorem atan2_cos_sin (t : ℝ) (h0 : 0 ≤ t) (h1 : t < Real.pi / 2) :
    atan2 (Real.sin t) (Real.cos t) = t := by
  have hπ := Real.pi_pos
  unfold atan2
  have hmk : (⟨Real.cos t, Real.sin t⟩ : ℂ)
      = Complex.cos t + Complex.sin t * Complex.I := by
    rw [Complex.mk_eq_add_mul_I, Complex.ofReal_cos, Complex.ofReal_sin]
  rw [hmk]
  exact Complex.arg_cos_add_sin_mul_I
    (Set.mem_Ioc.mpr ⟨by linarith, by linarith⟩)

/-- On a meridian (equal longitudes) the haversine distance is exactly
proportional to the latitude difference, for differences up to one degree. -/
theorem haversine_same_lng (p q : LatLng ℝ) (hlng : p.lng = q.lng)
    (hsmall : |q.lat - p.lat| ≤ 1) :
    haversineDistance p q
      = 6371000 * (Real.pi / 180) * |q.lat - p.lat| := by
  have hπ := Real.pi_pos
  simp only [haversineDistance]
  rw [hlng, sub_self, zero_mul, zero_div, zero_div, Real.sin_zero,
    mul_zero, mul_zero, add_zero]
  set x : ℝ := (q.lat - p.lat) * Real.pi / 180 / 2 with hx
  have hxabs : |x| = |q.lat - p.lat| * (Real.pi / 360) := by
    have hpos : (0 : ℝ) < Real.pi / 360 := by positivity
    rw [hx, show (q.lat - p.lat) * Real.pi / 180 / 2
        = (q.lat - p.lat) * (Real.pi / 360) by ring,
      abs_mul, abs_of_pos hpos]
  have hxb : |x| < Real.pi / 2 := by
    rw [hxabs]
    have h360 : Real.pi / 360 < Real.pi / 2 := by
      apply div_lt_div_of_pos_left hπ <;> norm_num
    calc |q.lat - p.lat| * (Real.pi / 360)
        ≤ 1 * (Real.pi / 360) :=
          mul_le_mul_of_nonneg_right hsmall (by positivity)
      _ = Real.pi / 360 := one_mul _
      _ < Real.pi / 2 := h360
  have hsq1 : Real.sin x * Real.sin x = Real.sin x ^ 2 := by ring
  have hsq2 : (1 : ℝ) - Real.sin x ^ 2 = Real.cos x ^ 2 := by
    nlinarith [Real.sin_sq_add_cos_sq x]
  rw [hsq1, Real.sqrt_sq_eq_abs, hsq2, Real.sqrt_sq_eq_abs]
  have hcosx : |Real.cos x| = Real.cos |x| := by
    rw [Real.cos_abs]
    exact abs_of_nonneg (Real.cos_nonneg_of_neg_pi_div_two_le_of_le
      (by cases abs_cases x with
        | inl h => rw [← h.1] at hxb; linarith [abs_nonneg x, h.1]
        | inr h => linarith [hxb, neg_abs_le x])
      (by linarith [le_abs_self x, hxb]))
  have hsinx : |Real.sin x| = Real.sin |x| := by
    rcases le_or_lt 0 x with h | h
    · rw [abs_of_nonneg h]
      refine abs_of_nonneg (Real.sin_nonneg_of_nonneg_of_le_pi h ?_)
      have := le_abs_self x
      linarith
    · rw [abs_of_neg h, Real.sin_neg]
      have hsle : Real.sin x ≤ 0 := by
        refine Real.sin_nonpos_of_nonnpos_of_neg_pi_le (le_of_lt h) ?_
        have := neg_abs_le x
        linarith
      rw [abs_of_nonpos hsle]
  rw [hsinx, hcosx, atan2_cos_sin |x| (abs_nonneg x) hxb, hxabs]
  ring

/-- The consecutive-legs loop as a zip sum. -/
theorem legsSum_eq_zip {α : Type} [LinearOrderedField α]
    (dist : LatLng α → LatLng α → α) :
    ∀ (c0 : Cluster α) (cs : List (Cluster α)),
      legsSum dist (c0 :: cs)
        = (((c0 :: cs).zip cs).map fun p =>
            dist p.1.bikeLocation p.2.bikeLocation).sum := by
  intro c0 cs
  induction cs generalizing c0 with
  | nil => simp [legsSum]
  | cons c1 t ih => simp [legsSum, ih c1]

/-- Claim C1 as amended: `createBikeWalkRoute` performs no nearest-neighbor
reordering of the clusters — its route keeps the cluster builder's order —
and with a home base the cycling distance is the home→first leg, plus the
anchor-to-anchor legs in that input order, plus the last→home leg (without a
home base, only the consecutive legs). -/
theorem claim_C1_amended {α : Type} [LinearOrderedField α] [FloorRing α]
    (dist : LatLng α → LatLng α → α) (s : BikeWalkSettings α) (now : String)
    (addresses : List (Address α)) (hb : LatLng α)
    (c0 : Cluster α) (cs : List (Cluster α)) :
    (createBikeWalkRoute dist s now addresses).clusters
        = createClusters dist s addresses
      ∧ totalCyclingDistanceOf dist (some hb) (c0 :: cs)
        = dist hb c0.bikeLocation
          + (((c0 :: cs).zip cs).map fun p =>
              dist p.1.bikeLocation p.2.bikeLocation).sum
          + dist ((c0 :: cs).getLastD c0).bikeLocation hb
      ∧ totalCyclingDistanceOf dist none (c0 :: cs)
        = (((c0 :: cs).zip cs).map fun p =>
            dist p.1.bikeLocation p.2.bikeLocation).sum := by
  refine ⟨rfl, ?_, ?_⟩
  · show dist hb c0.bikeLocation + legsSum dist (c0 :: cs)
        + dist ((c0 :: cs).getLastD c0).bikeLocation hb = _
    rw [legsSum_eq_zip]
  · show legsSum dist (c0 :: cs) = _
    rw [legsSum_eq_zip]

/-- Claim C1, counterexample: with home base at latitude 52 and cluster
anchors 0.3, 0.1 and 0.2 degrees further north on the same meridian (in that
builder order), the cycling distance computed by the code (input order,
0.8 of a degree-unit in total) differs from the nearest-neighbor sequencing
the claim describes (0.6 of a degree-unit): the sequencer does not reorder
the clusters. -/
theorem claim_C1_counterexample :
    totalCyclingDistanceOf haversineDistance (some cxHome)
        [cxClusterA, cxClusterB, cxClusterC]
      ≠ specCyclingDistance haversineDistance cxHome
        [cxClusterA, cxClusterB, cxClusterC] := by
  have hπ := Real.pi_pos
  have hvm : ∀ l1 l2 : ℝ, |l2 - l1| ≤ 1 →
      haversineDistance ⟨l1, 5⟩ ⟨l2, 5⟩
        = 6371000 * (Real.pi / 180) * |l2 - l1| :=
    fun l1 l2 h => haversine_same_lng ⟨l1, 5⟩ ⟨l2, 5⟩ rfl h
  have habs : ∀ d1 d2 r : ℝ, (52 + d2) - (52 + d1) = r → 0 ≤ r →
      |(52 + d2 : ℝ) - (52 + d1)| = r := by
    intro d1 d2 r hr hr0
    rw [hr]
    exact abs_of_nonneg hr0
  have eHA : haversineDistance ⟨52, 5⟩ ⟨52 + 3 / 10, 5⟩
      = 6371000 * (Real.pi / 180) * (3 / 10) := by
    have h1 : |(52 + 3 / 10 : ℝ) - 52| = 3 / 10 := by
      rw [show ((52 : ℝ) + 3 / 10 - 52) = 3 / 10 by ring]
      exact abs_of_nonneg (by norm_num)
    rw [hvm 52 (52 + 3 / 10) (by rw [h1]; norm_num), h1]
  have eHB : haversineDistance ⟨52, 5⟩ ⟨52 + 1 / 10, 5⟩
      = 6371000 * (Real.pi / 180) * (1 / 10) := by
    have h1 : |(52 + 1 / 10 : ℝ) - 52| = 1 / 10 := by
      rw [show ((52 : ℝ) + 1 / 10 - 52) = 1 / 10 by ring]
      exact abs_of_nonneg (by norm_num)
    rw [hvm 52 (52 + 1 / 10) (by rw [h1]; norm_num), h1]
  have eHC : haversineDistance ⟨52, 5⟩ ⟨52 + 2 / 10, 5⟩
      = 6371000 * (Real.pi / 180) * (2 / 10) := by
    have h1 : |(52 + 2 / 10 : ℝ) - 52| = 2 / 10 := by
      rw [show ((52 : ℝ) + 2 / 10 - 52) = 2 / 10 by ring]
      exact abs_of_nonneg (by norm_num)
    rw [hvm 52 (52 + 2 / 10) (by rw [h1]; norm_num), h1]
  have eAB : haversineDistance ⟨52 + 3 / 10, 5⟩ ⟨52 + 1 / 10, 5⟩
      = 6371000 * (Real.pi / 180) * (2 / 10) := by
    have h1 : |(52 + 1 / 10 : ℝ) - (52 + 3 / 10)| = 2 / 10 := by
      rw [show ((52 : ℝ) + 1 / 10 - (52 + 3 / 10)) = -(2 / 10) by ring]
      rw [abs_neg]
      exact abs_of_nonneg (by norm_num)
    rw [hvm (52 + 3 / 10) (52 + 1 / 10) (by rw [h1]; norm_num), h1]
  have eBA : haversineDistance ⟨52 + 1 / 10, 5⟩ ⟨52 + 3 / 10, 5⟩
      = 6371000 * (Real.pi / 180) * (2 / 10) := by
    have h1 : |(52 + 3 / 10 : ℝ) - (52 + 1 / 10)| = 2 / 10 := by
      rw [show ((52 : ℝ) + 3 / 10 - (52 + 1 / 10)) = 2 / 10 by ring]
      exact abs_of_nonneg (by norm_num)
    rw [hvm (52 + 1 / 10) (52 + 3 / 10) (by rw [h1]; norm_num), h1]
  have eBC : haversineDistance ⟨52 + 1 / 10, 5⟩ ⟨52 + 2 / 10, 5⟩
      = 6371000 * (Real.pi / 180) * (1 / 10) := by
    have h1 : |(52 + 2 / 10 : ℝ) - (52 + 1 / 10)| = 1 / 10 := by
      rw [show ((52 : ℝ) + 2 / 10 - (52 + 1 / 10)) = 1 / 10 by ring]
      exact abs_of_nonneg (by norm_num)
    rw [hvm (52 + 1 / 10) (52 + 2 / 10) (by rw [h1]; norm_num), h1]
  have eCA : haversineDistance ⟨52 + 2 / 10, 5⟩ ⟨52 + 3 / 10, 5⟩
      = 6371000 * (Real.pi / 180) * (1 / 10) := by
    have h1 : |(52 + 3 / 10 : ℝ) - (52 + 2 / 10)| = 1 / 10 := by
      rw [show ((52 : ℝ) + 3 / 10 - (52 + 2 / 10)) = 1 / 10 by ring]
      exact abs_of_nonneg (by norm_num)
    rw [hvm (52 + 2 / 10) (52 + 3 / 10) (by rw [h1]; norm_num), h1]
  have eCH : haversineDistance ⟨52 + 2 / 10, 5⟩ ⟨52, 5⟩
      = 6371000 * (Real.pi / 180) * (2 / 10) := by
    have h1 : |(52 : ℝ) - (52 + 2 / 10)| = 2 / 10 := by
      rw [show ((52 : ℝ) - (52 + 2 / 10)) = -(2 / 10) by ring]
      rw [abs_neg]
      exact abs_of_nonneg (by norm_num)
    rw [hvm (52 + 2 / 10) 52 (by rw [h1]; norm_num), h1]
  have eAH : haversineDistance ⟨52 + 3 / 10, 5⟩ ⟨52, 5⟩
      = 6371000 * (Real.pi / 180) * (3 / 10) := by
    have h1 : |(52 : ℝ) - (52 + 3 / 10)| = 3 / 10 := by
      rw [show ((52 : ℝ) - (52 + 3 / 10)) = -(3 / 10) by ring]
      rw [abs_neg]
      exact abs_of_nonneg (by norm_num)
    rw [hvm (52 + 3 / 10) 52 (by rw [h1]; norm_num), h1]
  have hc1 : haversineDistance ⟨52, 5⟩ ⟨52 + 1 / 10, 5⟩
      < haversineDistance ⟨52, 5⟩ ⟨52 + 3 / 10, 5⟩ := by
    rw [eHB, eHA]
    have : (0 : ℝ) < 6371000 * (Real.pi / 180) := by positivity
    nlinarith
  have hc2 : ¬ haversineDistance ⟨52, 5⟩ ⟨52 + 2 / 10, 5⟩
      < haversineDistance ⟨52, 5⟩ ⟨52 + 1 / 10, 5⟩ := by
    rw [eHB, eHC]
    have : (0 : ℝ) < 6371000 * (Real.pi / 180) := by positivity
    intro hcon
    nlinarith
  have hc3 : haversineDistance ⟨52 + 1 / 10, 5⟩ ⟨52 + 2 / 10, 5⟩
      < haversineDistance ⟨52 + 1 / 10, 5⟩ ⟨52 + 3 / 10, 5⟩ := by
    rw [eBC, eBA]
    have : (0 : ℝ) < 6371000 * (Real.pi / 180) := by positivity
    nlinarith
  have p1 : pickNearest haversineDistance ⟨52, 5⟩ ⟨52 + 3 / 10, 5⟩
      [⟨52 + 1 / 10, 5⟩, ⟨52 + 2 / 10, 5⟩]
      = (⟨52 + 1 / 10, 5⟩, [⟨52 + 3 / 10, 5⟩, ⟨52 + 2 / 10, 5⟩]) := by
    simp only [pickNearest]
    rw [if_pos hc1, if_neg hc2]
  have p2 : pickNearest haversineDistance ⟨52 + 1 / 10, 5⟩
      ⟨52 + 3 / 10, 5⟩ [⟨52 + 2 / 10, 5⟩]
      = (⟨52 + 2 / 10, 5⟩, [⟨52 + 3 / 10, 5⟩]) := by
    simp only [pickNearest]
    rw [if_pos hc3]
  have p3 : pickNearest haversineDistance ⟨52 + 2 / 10, 5⟩
      ⟨52 + 3 / 10, 5⟩ ([] : List (LatLng ℝ))
      = (⟨52 + 3 / 10, 5⟩, []) := rfl
  have t1 : specNNTour haversineDistance ⟨52, 5⟩
      [⟨52 + 3 / 10, 5⟩, ⟨52 + 1 / 10, 5⟩, ⟨52 + 2 / 10, 5⟩]
      = [⟨52 + 1 / 10, 5⟩, ⟨52 + 2 / 10, 5⟩, ⟨52 + 3 / 10, 5⟩] := by
    rw [specNNTour, p1]
    simp only
    rw [specNNTour, p2]
    simp only
    rw [specNNTour, p3]
    simp only
    rw [specNNTour]
  intro heq
  rw [show totalCyclingDistanceOf haversineDistance (some cxHome)
        [cxClusterA, cxClusterB, cxClusterC]
      = haversineDistance ⟨52, 5⟩ ⟨52 + 3 / 10, 5⟩
        + (haversineDistance ⟨52 + 3 / 10, 5⟩ ⟨52 + 1 / 10, 5⟩
          + (haversineDistance ⟨52 + 1 / 10, 5⟩ ⟨52 + 2 / 10, 5⟩ + 0))
        + haversineDistance ⟨52 + 2 / 10, 5⟩ ⟨52, 5⟩ from by
    simp [totalCyclingDistanceOf, legsSum, cxHome, cxClusterA, cxClusterB,
      cxClusterC, List.getLastD]] at heq
  rw [show specCyclingDistance haversineDistance cxHome
        [cxClusterA, cxClusterB, cxClusterC]
      = haversineDistance ⟨52, 5⟩ ⟨52 + 1 / 10, 5⟩
        + (haversineDistance ⟨52 + 1 / 10, 5⟩ ⟨52 + 2 / 10, 5⟩
          + (haversineDistance ⟨52 + 2 / 10, 5⟩ ⟨52 + 3 / 10, 5⟩ + 0))
        + haversineDistance ⟨52 + 3 / 10, 5⟩ ⟨52, 5⟩ from by
    simp only [specCyclingDistance, cxHome, cxClusterA, cxClusterB,
      cxClusterC, List.map_cons, List.map_nil]
    rw [t1]
    simp [pathLegs, List.getLastD]] at heq
  rw [eHA, eAB, eBC, eCH, eHB, eCA, eAH] at heq
  have hK : (0 : ℝ) < 6371000 * (Real.pi / 180) := by positivity
  nlinarith
